import Mathlib

/-!
Verification of the BASIL step-planning and step-chaining core of `oxasl`
(`src/oxasl/basil.py`), as a shallow embedding in Lean.

Python dictionaries are modelled as association lists over `String` keys with
Python `dict` semantics: assignment replaces the first binding of a key in
place (keeping its position) or appends a fresh binding at the end;
`dict.update` applies the other mapping's bindings in order; lookup returns
the first binding.  Numeric image data is modelled over `ℚ` (the Python code
performs exact closed-form arithmetic on numpy arrays; an image is a list of
voxel values).  Python `None` is `Val.none`; objects are truthy, `None` is
falsy.  Exceptions (`ValueError`, `UnboundLocalError`, `KeyError`,
`TypeError`) are modelled with `Except BErr`.
-/

namespace OxaslBasil

/-- Modelled from the spec: `AslImage` lives in `oxasl/image.py`, which is not
under `src/`.  Per spec §4.1/§6 an ASL dataset carries per-timepoint inversion
times (`tis`) and repeat counts (`rpts`); `tag` stands for the underlying
voxel data array, which the planner only passes through opaquely. -/
structure AslImage where
  tis : List ℚ
  rpts : List Nat
  tag : Nat
  deriving DecidableEq, Repr

/-- Modelled from the spec: number of inversion times of the dataset
(`asldata.ntis`, from the missing `oxasl/image.py`). -/
def AslImage.ntis (a : AslImage) : Nat := a.tis.length

/-- Modelled from the spec: `asldata.diff()` (missing `oxasl/image.py`)
converts the data to label-control differenced form; it changes only the
voxel data, preserving the timing metadata that the planner reads. -/
def AslImage.diff (a : AslImage) : AslImage := { a with tag := a.tag + 1 }

/-- Modelled from the spec: `asldata_mean_across_repeats` (missing
`oxasl/image.py`) averages the data over repeats at each timepoint, so the
result has one repeat per inversion time (spec §4.5 "repeat-averaged data"). -/
def AslImage.meanAcrossRepeats (a : AslImage) : AslImage :=
  { tis := a.tis, rpts := a.tis.map (fun _ => 1), tag := a.tag + 2 }

/-- A posterior representation ("MVN"): named parameters, each with a mean
image and a variance (spec §3: "an opaque multivariate-normal-style object
summarizing current parameter estimates and uncertainty"). -/
abbrev MVN := List (String × (List ℚ × ℚ))

/-- A Python value as stored in an option dictionary or step result. -/
inductive Val where
  | none : Val
  | b : Bool → Val
  | n : Nat → Val
  | q : ℚ → Val
  | s : String → Val
  | img : List ℚ → Val
  | mask : List Bool → Val
  | asl : AslImage → Val
  | mvn : MVN → Val
  deriving DecidableEq, Repr

/-- Python truthiness of a value (`None` is falsy, objects are truthy). -/
def Val.truthy : Val → Bool
  | Val.none => false
  | Val.b x => x
  | Val.n x => x != 0
  | Val.q x => x != 0
  | Val.s x => x != ""
  | Val.img _ => true
  | Val.mask _ => true
  | Val.asl _ => true
  | Val.mvn _ => true

/-- Python truthiness of an optional boolean attribute (`None` is falsy). -/
def truthy : Option Bool → Bool
  | some b => b
  | Option.none => false

/-- Python truthiness of an optional value (`None` is falsy). -/
def valTruthy : Option Val → Bool
  | some v => v.truthy
  | Option.none => false

/-- An optional value as stored in a Python dict (`None` when absent). -/
def optV (o : Option Val) : Val := o.getD Val.none

section Dict

variable {α : Type}

/-- Dictionary lookup: first binding of the key. -/
def dget : List (String × α) → String → Option α
  | [], _ => Option.none
  | (k', v) :: rest, k => if k' = k then some v else dget rest k

/-- Dictionary assignment `d[k] = v`: replace the first binding of `k` in
place, or append a fresh binding. -/
def dset : List (String × α) → String → α → List (String × α)
  | [], k, v => [(k, v)]
  | (k', v') :: rest, k, v =>
      if k' = k then (k, v) :: rest else (k', v') :: dset rest k v

/-- `del d[k]`: remove the bindings of `k`. -/
def ddel : List (String × α) → String → List (String × α)
  | [], _ => []
  | (k', v) :: rest, k => if k' = k then ddel rest k else (k', v) :: ddel rest k

/-- `d.update(kw)`: assign each binding of `kw` into `d`, in order. -/
def dupdate : List (String × α) → List (String × α) → List (String × α)
  | d, [] => d
  | d, (k, v) :: rest => dupdate (dset d k v) rest

end Dict

/-- Errors the planner or the chain may fail with, modelling Python
exceptions (`ValueError`, `UnboundLocalError`, `KeyError`, `TypeError`). -/
inductive BErr where
  | valueError : String → BErr
  | nameError : String → BErr
  | keyError : String → BErr
  | typeError : String → BErr
  deriving DecidableEq, Repr

/-- A step configuration: a Python dict from option name to value. -/
abbrev Config := List (String × Val)

/-- A step result as returned by a step's `run`. -/
abbrev StepResult := List (String × Val)

/-! ### String key helpers

The planner builds some keys by string formatting (`"ti%i"`, `"rpt%i"`,
`"PSP_byname%i"`, `"PSP_byname%i_%s"`).  These lemmas let us conclude that
such a formatted key differs from any key not sharing its prefix. -/

/-- Key of the `idx`-th spatial prior specified by name
(`"PSP_byname%i" % prior_idx` in `_add_prior`). -/
def pspKey (i : Nat) : String := "PSP_byname" ++ toString i

/-- Key of an extra attribute of the `idx`-th named prior
(`"PSP_byname%i_%s" % (prior_idx, key)` in `_add_prior`). -/
def pspSub (i : Nat) (name : String) : String :=
  "PSP_byname" ++ (toString i ++ ("_" ++ name))

/-- Key of the `idx`-th inversion time (`"ti%i" % (idx+1)`). -/
def tiKey (i : Nat) : String := "ti" ++ toString (i + 1)

/-- Key of the `idx`-th repeat count (`"rpt%i" % (idx+1)`). -/
def rptKey (i : Nat) : String := "rpt" ++ toString (i + 1)

structure Wsp where
  asldata : AslImage
  mask : Option (List Bool) := Option.none
  wp : Bool := false
  infertiss : Option Bool := Option.none
  inferbat : Bool := false
  infertau : Option Bool := Option.none
  inferart : Option Bool := Option.none
  infert1 : Bool := false
  inferpc : Bool := false
  spatial : Bool := false
  onestep : Bool := false
  t1im : Option (List ℚ) := Option.none
  pgm : Option (List ℚ) := Option.none
  pwm : Option (List ℚ) := Option.none
  initmvn : Option Val := Option.none
  t1 : Option ℚ := Option.none
  t1b : Option ℚ := Option.none
  bat : Option ℚ := Option.none
  tau : Option ℚ := Option.none
  casl : Option Bool := Option.none
  slicedt : Option ℚ := Option.none
  sliceband : Option ℚ := Option.none
  FA : Option ℚ := Option.none
  pvcorr : Bool := false
  basil_options : Option Config := Option.none
  deriving Repr

/-! ### Option assembly (`basil_steps` lines 152-179) -/

/-- Default Fabber options for VB runs (`basil_steps`, `options = {...}`). -/
def baseOptions (asldata : AslImage) : Config :=
  [("data", Val.asl asldata),
   ("model", Val.s "aslrest"),
   ("disp", Val.s "none"),
   ("exch", Val.s "mix"),
   ("method", Val.s "vb"),
   ("noise", Val.s "white"),
   ("allow-bad-voxels", Val.b true),
   ("max-iterations", Val.n 20),
   ("convergence", Val.s "trialmode"),
   ("max-trials", Val.n 10),
   ("save-mean", Val.b true),
   ("save-mvn", Val.b true),
   ("save-std", Val.b true)]

/-- `for idx, ti in enumerate(asldata.tis): options["ti%i"], options["rpt%i"]`. -/
def tiOptions (asldata : AslImage) (d : Config) : Config :=
  (List.range asldata.tis.length).foldl
    (fun acc i =>
      dset (dset acc (tiKey i) (Val.q (asldata.tis.getD i 0)))
        (rptKey i) (Val.n (asldata.rpts.getD i 0))) d

/-- `if value is not None: options[attr] = value` for one attribute. -/
def attrOpt (d : Config) (k : String) (v : Option Val) : Config :=
  match v with
  | some x => dset d k x
  | Option.none => d

/-- The loop over `("t1", "t1b", "bat", "tau", "casl", "slicedt",
"sliceband", "FA", "mask")`. -/
def wspAttrOptions (wsp : Wsp) (d : Config) : Config :=
  attrOpt (attrOpt (attrOpt (attrOpt (attrOpt (attrOpt (attrOpt (attrOpt
    (attrOpt d "t1" (wsp.t1.map Val.q))
    "t1b" (wsp.t1b.map Val.q))
    "bat" (wsp.bat.map Val.q))
    "tau" (wsp.tau.map Val.q))
    "casl" (wsp.casl.map Val.b))
    "slicedt" (wsp.slicedt.map Val.q))
    "sliceband" (wsp.sliceband.map Val.q))
    "FA" (wsp.FA.map Val.q))
    "mask" (wsp.mask.map Val.mask)

/-- The assembled base configuration: defaults, per-TI timing options,
workspace attributes, then `options.update(kwargs)` (free-form overrides). -/
def assembleOptions (wsp : Wsp) (asldata : AslImage) (kwargs : Config) : Config :=
  dupdate (wspAttrOptions wsp (tiOptions asldata (baseOptions asldata))) kwargs

/-- `_add_prior(options, prior_idx, param, **kwargs)`: sets
`PSP_byname<i>` to the parameter name and `PSP_byname<i>_<key>` for each
keyword, returning the incremented prior index. -/
def addPrior (d : Config) (idx : Nat) (param : String) (kvs : List (String × Val)) :
    Config × Nat :=
  (kvs.foldl (fun acc p => dset acc (pspSub idx p.1) p.2) (dset d (pspKey idx) (Val.s param)),
   idx + 1)

/-- Options for the final spatial step (`options_svb`). -/
def svbBase : Config :=
  [("method", Val.s "spatialvb"),
   ("param-spatial-priors", Val.s "N+"),
   ("convergence", Val.s "maxiters"),
   ("max-iterations", Val.n 20)]

/-- A conditional dict assignment (`if flag: options[k] = v`). -/
def condSet (c : Bool) (d : Config) (k : String) (v : Val) : Config :=
  if c then dset d k v else d

/-- Parameter inference/inclusion flags, the initial MVN and the T1-image
prior (`basil_steps` lines 209-236), producing the updated options and the
running spatial-prior index. -/
def preOptions (wsp : Wsp) (options : Config) : Config × Nat :=
  let o1 := condSet (truthy wsp.infertiss) options "inctiss" (Val.b true)
  let o2 := condSet wsp.inferbat (condSet wsp.inferbat o1 "incbat" (Val.b true))
    "inferbat" (Val.b true)
  let o3 := condSet (truthy wsp.inferart) o2 "incart" (Val.b true)
  let o4 := condSet wsp.inferpc o3 "incpc" (Val.b true)
  let o5 := condSet (truthy wsp.infertau) o4 "inctau" (Val.b true)
  let o6 := condSet wsp.infert1 o5 "inct1" (Val.b true)
  let o7 := condSet wsp.pvcorr o6 "incpve" (Val.b true)
  let o8 := condSet (valTruthy wsp.initmvn) o7 "continue-from-mvn" (optV wsp.initmvn)
  match wsp.t1im with
  | some im => addPrior o8 1 "T_1" [("type", Val.s "I"), ("image", Val.img im)]
  | Option.none => (o8, 1)

/-! ### Steps and the planner state -/

/-- A step in the Basil modelling process: either a Fabber invocation or the
PVC initialisation step, each with a snapshotted configuration and a
description. -/
inductive Step where
  | fabber : Config → String → Step
  | pvcInit : Config → String → Step
  deriving DecidableEq, Repr

/-- The options snapshot held by a step (`Step.__init__` copies the dict). -/
def Step.options : Step → Config
  | Step.fabber o _ => o
  | Step.pvcInit o _ => o

/-- The mutable state threaded through the planner's module sections:
the shared options dict, the spatial-step options dict, the accumulated step
list, the running components label, the last assigned step description
(`None` models Python's unbound local `step_desc`), and the spatial-prior
index counter. -/
structure PlanState where
  options : Config
  svb : Config
  steps : List Step
  components : String
  stepDesc : Option String
  spriors : Nat
  deriving Repr

/-- TISSUE MODULE (`basil_steps` lines 241-250). -/
def tissueModule (wsp : Wsp) (st : PlanState) : PlanState :=
  if truthy wsp.infertiss then
    let components := st.components ++ " Tissue "
    let options := dset st.options "infertiss" (Val.b true)
    let d := "VB - " ++ components
    let steps := if wsp.onestep then st.steps else st.steps ++ [Step.fabber options d]
    let pr := addPrior st.svb st.spriors "ftiss" [("type", Val.s "M")]
    { options := options, svb := pr.1, steps := steps, components := components,
      stepDesc := some d, spriors := pr.2 }
  else st

/-- ARTERIAL MODULE (`basil_steps` lines 252-261). -/
def artModule (wsp : Wsp) (st : PlanState) : PlanState :=
  if truthy wsp.inferart then
    let components := st.components ++ " Arterial "
    let options := dset st.options "inferart" (Val.b true)
    let d := "VB - " ++ components
    let steps := if wsp.onestep then st.steps else st.steps ++ [Step.fabber options d]
    let pr := addPrior st.svb st.spriors "fblood" [("type", Val.s "A")]
    { options := options, svb := pr.1, steps := steps, components := components,
      stepDesc := some d, spriors := pr.2 }
  else st

/-- BOLUS DURATION MODULE (`basil_steps` lines 263-269). -/
def tauModule (wsp : Wsp) (st : PlanState) : PlanState :=
  if truthy wsp.infertau then
    let components := st.components ++ " Bolus duration "
    let options := dset st.options "infertau" (Val.b true)
    let d := "VB - " ++ components
    let steps := if wsp.onestep then st.steps else st.steps ++ [Step.fabber options d]
    { st with options := options, steps := steps, components := components, stepDesc := some d }
  else st

/-- MODEL EXTENSIONS MODULE (`basil_steps` lines 271-286): dispersion,
exchange and pre-capillary parameters, grouped into one step. -/
def extModule (inferdisp inferexch : Bool) (wsp : Wsp) (st : PlanState) : PlanState :=
  if inferdisp || inferexch || wsp.inferpc then
    let c1 := if inferdisp then st.components ++ " dispersion" else st.components
    let o1 := if inferdisp then dset st.options "inferdisp" (Val.b true) else st.options
    let c2 := if inferexch then c1 ++ " exchange" else c1
    let o2 := if inferexch then dset o1 "inferexch" (Val.b true) else o1
    let c3 := if wsp.inferpc then c2 ++ " pre-capiliary" else c2
    let o3 := if wsp.inferpc then dset o2 "inferpc" (Val.b true) else o2
    let d := "VB - " ++ c3
    let steps := if wsp.onestep then st.steps else st.steps ++ [Step.fabber o3 d]
    { st with options := o3, steps := steps, components := c3, stepDesc := some d }
  else st

/-- T1 MODULE (`basil_steps` lines 288-294). -/
def t1Module (wsp : Wsp) (st : PlanState) : PlanState :=
  if wsp.infert1 then
    let components := st.components ++ " T1 "
    let options := dset st.options "infert1" (Val.b true)
    let d := "VB - " ++ components
    let steps := if wsp.onestep then st.steps else st.steps ++ [Step.fabber options d]
    { st with options := options, steps := steps, components := components, stepDesc := some d }
  else st

/-- The configuration of the PVC initialisation step
(`PvcInitStep({"data": asldata, "mask": wsp.mask, "pgm": wsp.pgm,
"pwm": wsp.pwm}, ...)`). -/
def pvcConfig (wsp : Wsp) (asldata : AslImage) : Config :=
  [("data", Val.asl asldata),
   ("mask", optV (wsp.mask.map Val.mask)),
   ("pgm", optV (wsp.pgm.map Val.img)),
   ("pwm", optV (wsp.pwm.map Val.img))]

/-- PV CORRECTION MODULE (`basil_steps` lines 296-309): sets the `pvcorr`
option, declares the three PV priors, and appends the PVC initialisation
step only if at least one prior step exists. -/
def pvcModule (pvcorrOn : Bool) (wsp : Wsp) (asldata : AslImage) (st : PlanState) :
    PlanState :=
  if pvcorrOn then
    let components := st.components ++ " PVE"
    let options := dset st.options "pvcorr" (Val.b true)
    let pr1 := addPrior options st.spriors "pvgm"
      [("type", Val.s "I"), ("image", optV (wsp.pgm.map Val.img))]
    let pr2 := addPrior pr1.1 pr1.2 "pvwm"
      [("type", Val.s "I"), ("image", optV (wsp.pwm.map Val.img))]
    let pr3 := addPrior pr2.1 pr2.2 "fwm" [("type", Val.s "M")]
    let steps := if st.steps.isEmpty then st.steps
      else st.steps ++ [Step.pvcInit (pvcConfig wsp asldata) "PVC initialisation"]
    { options := pr3.1, svb := st.svb, steps := steps, components := components,
      stepDesc := st.stepDesc, spriors := pr3.2 }
  else st

/-- SPATIAL MODULE (`basil_steps` lines 311-318): overlay the spatial-step
options onto the shared options, drop `max-trials`, and append the spatial
step unless in single-step mode. -/
def spatialModule (spatialOn onestep : Bool) (st : PlanState) : PlanState :=
  if spatialOn then
    { st with
      options := ddel (dupdate st.options st.svb) "max-trials",
      steps := if onestep then st.steps
        else st.steps ++ [Step.fabber (ddel (dupdate st.options st.svb) "max-trials")
          ("Spatial VB - " ++ st.components)],
      stepDesc := some ("Spatial VB - " ++ st.components) }
  else st

/-- `ValueError` message for an empty step plan. -/
def noStepsMsg : String := "No steps were generated - no parameters were set to be inferred"

/-- `ValueError` message when only one PV map is supplied. -/
def onePvMapMsg : String := "Only one partial volume map (GM / WM) was supplied for PV correctioN"

/-- `ValueError` message when PV correction is requested without tissue. -/
def pvArtOnlyMsg : String :=
  "ERROR: PV correction is not compatible with --artonly option (there is no tissue component)"

/-- The full module pipeline of `basil_steps` (lines 238-318). -/
def planModules (wsp : Wsp) (asldata : AslImage) (inferdisp inferexch pvcorrOn spatialOn : Bool)
    (st : PlanState) : PlanState :=
  spatialModule spatialOn wsp.onestep
    (pvcModule pvcorrOn wsp asldata
      (t1Module wsp
        (extModule inferdisp inferexch wsp
          (tauModule wsp
            (artModule wsp
              (tissueModule wsp st))))))

/-- The initial planner state of `basil_steps` (after option assembly, the
spatial-step option defaults with the PV-correction iteration raise, and the
inference/inclusion flag section). -/
def planInit (wsp : Wsp) (asldata : AslImage) (kwargs : Config) : PlanState :=
  let pvcorr := wsp.pgm.isSome || wsp.pwm.isSome
  let svb0 := if pvcorr then dset svbBase "max-iterations" (Val.n 200) else svbBase
  let pre := preOptions wsp (assembleOptions wsp asldata kwargs)
  { options := pre.1, svb := svb0, steps := [], components := "",
    stepDesc := Option.none, spriors := pre.2 }

/-- The planner state after running all module sections on the initial
state.  `inferdisp`/`inferexch` are read from the assembled options (after
the free-form overrides), as in the source. -/
def planFinal (wsp : Wsp) (asldata : AslImage) (kwargs : Config) : PlanState :=
  let options0 := assembleOptions wsp asldata kwargs
  planModules wsp asldata
    (dget options0 "disp" != some (Val.s "none"))
    (dget options0 "exch" != some (Val.s "mix"))
    (wsp.pgm.isSome || wsp.pwm.isSome)
    (wsp.spatial || (wsp.pgm.isSome || wsp.pwm.isSome))
    (planInit wsp asldata kwargs)

/-- `basil_steps(wsp, asldata, **kwargs)`: plan the ordered list of steps of
a BASIL run.  In single-step mode a read of the unbound `step_desc` local
raises `UnboundLocalError` (modelled as `BErr.nameError`). -/
def basil_steps (wsp : Wsp) (asldata? : Option AslImage) (kwargs : Config) :
    Except BErr (List Step) :=
  match asldata? with
  | Option.none => Except.error (BErr.valueError "Input ASL data is None")
  | some a0 =>
    let pvcorr := wsp.pgm.isSome || wsp.pwm.isSome
    if pvcorr && (wsp.pgm.isNone || wsp.pwm.isNone) then
      Except.error (BErr.valueError onePvMapMsg)
    else if pvcorr && !(truthy wsp.infertiss) then
      Except.error (BErr.valueError pvArtOnlyMsg)
    else
      let st := planFinal wsp a0.diff kwargs
      if wsp.onestep then
        match st.stepDesc with
        | some d =>
          let steps := st.steps ++ [Step.fabber st.options d]
          if steps.isEmpty then Except.error (BErr.valueError noStepsMsg)
          else Except.ok steps
        | Option.none => Except.error (BErr.nameError "step_desc")
      else
        if st.steps.isEmpty then Except.error (BErr.valueError noStepsMsg)
        else Except.ok st.steps

/-! ### The PVC initialisation computation (`PvcInitStep.run`) -/

/-- `temp_pgm[temp_pgm < 0.2] = 0.2`: clip the grey-matter fraction map to a
floor of 0.2. -/
def clipPgm (g : List ℚ) : List ℚ :=
  g.map (fun x => if x < (1/5 : ℚ) then (1/5 : ℚ) else x)

/-- `wm_cbf_term = (prev_ftiss * 0.4) * pwm` (voxelwise). -/
def wmCbfTerm (ftiss pwm : List ℚ) : List ℚ :=
  List.zipWith (fun f w => (f * (2/5 : ℚ)) * w) ftiss pwm

/-- `gmcbf_init = (prev_ftiss - wm_cbf_term) / temp_pgm` (voxelwise). -/
def gmcbfInit (ftiss pwm pgm : List ℚ) : List ℚ :=
  List.zipWith (fun x g => x / g)
    (List.zipWith (fun f t => f - t) ftiss (wmCbfTerm ftiss pwm))
    (clipPgm pgm)

/-- `wmcbf_init = gmcbf_init * 0.4` (voxelwise). -/
def wmcbfInit (ftiss pwm pgm : List ℚ) : List ℚ :=
  (gmcbfInit ftiss pwm pgm).map (fun x => x * (2/5 : ℚ))

/-- Restrict an image to a mask (zero outside the mask). -/
def applyMask (mask : List Bool) (im : List ℚ) : List ℚ :=
  List.zipWith (fun m v => if m then v else 0) mask im

/-- Modelled from the spec: `mvntool` (imported from `oxasl.wrappers`, which
is not under `src/`) with `write=True, valim=…, var=…` writes the given image
into the posterior representation as the named parameter's mean, with the
given fixed variance, restricted to the mask (spec §4.3: "Both estimates are
written into the posterior representation as new parameter means with a
fixed variance (0.1), restricted to the mask"). -/
def mvntool (mvn : MVN) (param : String) (mask : List Bool) (valim : List ℚ)
    (var : ℚ) : MVN :=
  dset mvn param (applyMask mask valim, var)

/-- Fetch a key from a Python dict, raising `KeyError` when absent. -/
def getKey (d : List (String × Val)) (k : String) : Except BErr Val :=
  match dget d k with
  | some v => Except.ok v
  | Option.none => Except.error (BErr.keyError k)

/-- `PvcInitStep.run(prev_output)`: compute the closed-form initial GM/WM
perfusion estimates from the previous step's converged mean tissue perfusion
and write them into the previous step's posterior representation.  The
result maps `finalMVN` to the updated posterior and nothing else. -/
def pvcRun (opts : Config) (prev : StepResult) : Except BErr StepResult :=
  match getKey opts "mask" with
  | Except.error e => Except.error e
  | Except.ok maskV =>
  match getKey opts "pgm" with
  | Except.error e => Except.error e
  | Except.ok pgmV =>
  match getKey prev "mean_ftiss" with
  | Except.error e => Except.error e
  | Except.ok ftissV =>
  match getKey opts "pwm" with
  | Except.error e => Except.error e
  | Except.ok pwmV =>
  match getKey prev "finalMVN" with
  | Except.error e => Except.error e
  | Except.ok mvnV =>
  match maskV, pgmV, ftissV, pwmV, mvnV with
  | Val.mask mask, Val.img pgm, Val.img ftiss, Val.img pwm, Val.mvn mvn =>
      let gm := gmcbfInit ftiss pwm pgm
      let wm := wmcbfInit ftiss pwm pgm
      let mvn1 := mvntool mvn "ftiss" mask gm (1/10 : ℚ)
      let mvn2 := mvntool mvn1 "fwm" mask wm (1/10 : ℚ)
      Except.ok [("finalMVN", Val.mvn mvn2)]
  | _, _, _, _, _ => Except.error (BErr.typeError "PvcInitStep.run")

/-! ### The step runner (`basil_fit` and `Step.run`) -/

/-- Run one step given the previous step's result (`None` for the first
step).  A Fabber step first assigns the previous result's `finalMVN` into
its own configuration under `continue-from-mvn` (only when there is a
previous result), then submits the configuration to the external engine
`E`.  A PVC initialisation step reads the previous result directly and does
not modify its configuration.  Returns the configuration the step ran with,
paired with its result. -/
def runStep (E : Config → StepResult) : Step → Option StepResult →
    Except BErr (Config × StepResult)
  | Step.fabber opts _, Option.none => Except.ok (opts, E opts)
  | Step.fabber opts _, some prev =>
      match dget prev "finalMVN" with
      | some v =>
          let cfg := dset opts "continue-from-mvn" v
          Except.ok (cfg, E cfg)
      | Option.none => Except.error (BErr.keyError "finalMVN")
  | Step.pvcInit _ _, Option.none =>
      Except.error (BErr.typeError "NoneType is not subscriptable")
  | Step.pvcInit opts _, some prev =>
      match pvcRun opts prev with
      | Except.error e => Except.error e
      | Except.ok res => Except.ok (opts, res)

/-- The step loop of `basil_fit`: run the steps in order, each step's result
becoming the next step's initialisation input; record each step's
configuration and result. -/
def runChain (E : Config → StepResult) :
    List Step → Option StepResult → Except BErr (List (Config × StepResult))
  | [], _ => Except.ok []
  | s :: rest, prev =>
      match runStep E s prev with
      | Except.error e => Except.error e
      | Except.ok cr =>
          match runChain E rest (some cr.2) with
          | Except.error e => Except.error e
          | Except.ok tail => Except.ok (cr :: tail)

/-- `basil_fit(wsp, asldata, **kwargs)`: plan the steps, then execute them
sequentially. -/
def basil_fit (E : Config → StepResult) (wsp : Wsp) (asldata? : Option AslImage)
    (kwargs : Config) : Except BErr (List (Config × StepResult)) :=
  match basil_steps wsp asldata? kwargs with
  | Except.error e => Except.error e
  | Except.ok steps => runChain E steps Option.none

/-! ### The top-level procedure (`basil`) -/

/-- Single-TI mode of `basil` (lines 58-63): with one inversion time the
arterial component and the bolus duration are force-disabled. -/
def wspSingleTi (wsp : Wsp) : Wsp :=
  if wsp.asldata.ntis = 1 then
    { wsp with inferart := some false, infertau := some false } else wsp

/-- `if wsp.t1 is None: wsp.t1 = t1_default`. -/
def defT1 (w : Wsp) (v : ℚ) : Wsp :=
  if w.t1 = Option.none then { w with t1 := some v } else w

/-- `if wsp.t1b is None: wsp.t1b = 1.65`. -/
def defT1b (w : Wsp) : Wsp :=
  if w.t1b = Option.none then { w with t1b := some (33/20 : ℚ) } else w

/-- `if wsp.bat is None: wsp.bat = bat_default`. -/
def defBat (w : Wsp) (v : ℚ) : Wsp :=
  if w.bat = Option.none then { w with bat := some v } else w

/-- `if wsp.tau is None: wsp.tau = 1.8`. -/
def defTau (w : Wsp) : Wsp :=
  if w.tau = Option.none then { w with tau := some (9/5 : ℚ) } else w

/-- `if wsp.infertiss is None: wsp.infertiss = True`. -/
def defInfertiss (w : Wsp) : Wsp :=
  if w.infertiss = Option.none then { w with infertiss := some true } else w

/-- `if wsp.infertau is None: wsp.infertau = not wsp.casl`. -/
def defInfertau (w : Wsp) : Wsp :=
  if w.infertau = Option.none then
    { w with infertau := some (!(truthy w.casl)) } else w

/-- Lines 58-87 of `basil`: single-TI forcing and mode-dependent default
resolution, applied to the workspace before planning.  In white-paper mode
the tissue-T1 default is 1.65 and the bolus-arrival-time default 0;
otherwise they are 1.3 and (1.3 for continuous labelling, else 0.7); the
bolus-duration default is 1.8 in both modes. -/
def basilDefaults (wsp0 : Wsp) : Wsp :=
  let wsp := wspSingleTi wsp0
  let t1Default : ℚ := if wsp.wp then (33/20 : ℚ) else (13/10 : ℚ)
  let batDefault : ℚ :=
    if wsp.wp then 0 else (if truthy wsp.casl then (13/10 : ℚ) else (7/10 : ℚ))
  defInfertau (defInfertiss (defTau (defBat (defT1b (defT1 wsp t1Default))
    batDefault)))

/-- The recorded outcome of a top-level `basil` run: the chain run on the
repeat-averaged data when the pre-fit ran, and the chain run on the full
data. -/
structure BasilOut where
  initChain : Option (List (Config × StepResult))
  mainChain : List (Config × StepResult)

/-- The final step's `finalMVN` of an executed chain (a missing key or an
empty chain reads as `None` through the workspace). -/
def lastMVN (rs : List (Config × StepResult)) : Option Val :=
  match rs.getLast? with
  | some cr => dget cr.2 "finalMVN"
  | Option.none => Option.none

/-- `basil(wsp, prefit=…)`: apply the single-TI forcing and default
resolution; when a pre-fit is requested and some timepoint has more than one
repeat, run the chain on the repeat-averaged data and store the final step's
`finalMVN` as `wsp.initmvn` (a missing key reads as `None` through the
workspace); then run the chain on the full data. -/
def basil (E : Config → StepResult) (wsp0 : Wsp) (prefit : Bool) :
    Except BErr BasilOut :=
  let wsp := basilDefaults wsp0
  let extra := wsp.basil_options.getD []
  if prefit ∧ 1 < wsp.asldata.rpts.foldl max 0 then
    match basil_fit E wsp (some wsp.asldata.meanAcrossRepeats) extra with
    | Except.error e => Except.error e
    | Except.ok ic =>
        let wsp := { wsp with initmvn := lastMVN ic }
        match basil_fit E wsp (some wsp.asldata) extra with
        | Except.error e => Except.error e
        | Except.ok mc => Except.ok { initChain := some ic, mainChain := mc }
  else
    match basil_fit E wsp (some wsp.asldata) extra with
    | Except.error e => Except.error e
    | Except.ok mc => Except.ok { initChain := Option.none, mainChain := mc }


/-! ### Predicates used by the planner invariants -/

/-- Invariant: the shared options dict maps `k` to `v`, and so does the
snapshotted configuration of every Fabber step planned so far. -/
def FabInv (k : String) (v : Option Val) (st : PlanState) : Prop :=
  dget st.options k = v ∧
  ∀ opts d, Step.fabber opts d ∈ st.steps → dget opts k = v

/-- Invariant: every key of the spatial-step options dict is one of its four
base keys or a named-prior (`PSP_byname…`) key. -/
def SvbKeysOk (svb : Config) : Prop :=
  ∀ p ∈ svb, p.1 = "method" ∨ p.1 = "param-spatial-priors" ∨
    p.1 = "convergence" ∨ p.1 = "max-iterations" ∨
    p.1.data.take 10 = "PSP_byname".data

/-- Invariant: a planned step list is empty or starts with a Fabber step. -/
def HeadFab (l : List Step) : Prop :=
  l = [] ∨ ∃ opts d rest, l = Step.fabber opts d :: rest

/-- Whether a planner outcome is a successfully returned empty step list. -/
def returnsEmptyPlan (r : Except BErr (List Step)) : Bool :=
  match r with
  | Except.ok [] => true
  | _ => false



/-- Decidable equality of planner/runner outcomes. -/
instance {ε α : Type} [DecidableEq ε] [DecidableEq α] : DecidableEq (Except ε α) :=
  fun a b =>
  match a, b with
  | Except.error e1, Except.error e2 =>
      if h : e1 = e2 then isTrue (by rw [h])
      else isFalse (fun hh => h (by injection hh))
  | Except.ok v1, Except.ok v2 =>
      if h : v1 = v2 then isTrue (by rw [h])
      else isFalse (fun hh => h (by injection hh))
  | Except.error _, Except.ok _ => isFalse (fun hh => Except.noConfusion hh)
  | Except.ok _, Except.error _ => isFalse (fun hh => Except.noConfusion hh)

/-! ### Concrete inputs used by witnesses and counterexamples -/

/-- A single-TI dataset with one repeat. -/
def tAsl : AslImage := { tis := [3/2], rpts := [1], tag := 0 }

/-- Workspace for the C6 witness: single-TI data with arterial and
bolus-duration inference explicitly requested. -/
def c6Wsp : Wsp :=
  { asldata := tAsl, infertiss := some true, inferart := some true,
    infertau := some true }

/-- The plan produced for the C6 witness workspace. -/
def c6Run : List Step :=
  ((basil_steps (basilDefaults c6Wsp) (some tAsl) []).toOption).getD []


/-- Workspace for the C10 witness, first part: `pvcorr` attribute set without
any PV maps. -/
def c10aWsp : Wsp := { asldata := tAsl, infertiss := some true, pvcorr := true }

/-- The plan for `c10aWsp`. -/
def c10aRun : List Step :=
  ((basil_steps c10aWsp (some tAsl) []).toOption).getD []

/-- Workspace for the C10 witness, second part: both PV maps supplied but the
`pvcorr` attribute unset. -/
def c10bWsp : Wsp :=
  { asldata := tAsl, infertiss := some true, pgm := some [1],
    pwm := some [0], mask := some [true] }

/-- The plan for `c10bWsp`. -/
def c10bRun : List Step :=
  ((basil_steps c10bWsp (some tAsl) []).toOption).getD []


/-- C5 witness workspaces: one map only; neither map; both maps with tissue
inference; both maps without tissue inference. -/
def c5aWsp : Wsp := { asldata := tAsl, infertiss := some true, pgm := some [1] }

def c5bWsp : Wsp := { asldata := tAsl, infertiss := some true }

def c5bRun : List Step :=
  ((basil_steps c5bWsp (some tAsl) []).toOption).getD []

def c5cWsp : Wsp :=
  { asldata := tAsl, infertiss := some true, pgm := some [1],
    pwm := some [0], mask := some [true] }

def c5cRun : List Step :=
  ((basil_steps c5cWsp (some tAsl) []).toOption).getD []

def c5dWsp : Wsp :=
  { asldata := tAsl, infertiss := some false, pgm := some [1], pwm := some [0] }


/-- Workspace for the C4 witness: single-step mode with several features. -/
def c4Wsp : Wsp :=
  { asldata := tAsl, infertiss := some true, inferart := some true,
    spatial := true, onestep := true }

/-- The plan for `c4Wsp`. -/
def c4Run : List Step :=
  ((basil_steps c4Wsp (some tAsl) []).toOption).getD []


/-- C7 witness workspaces. -/
def c7aWsp : Wsp := { asldata := tAsl, wp := true }

def c7bWsp : Wsp := { asldata := tAsl, t1 := some 2, bat := some 3, tau := some 4 }

def c7cWsp : Wsp := { asldata := tAsl, casl := some true }


/-- C8 inputs: no inference features enabled, single-step and multi-step. -/
def c8aWsp : Wsp := { asldata := tAsl, infertiss := some false, onestep := true }

def c8bWsp : Wsp := { asldata := tAsl, infertiss := some false }


/-- C3 counterexample workspace: tissue inference plus the spatial step. -/
def c3Wsp : Wsp := { asldata := tAsl, infertiss := some true, spatial := true }


/-- Follows the spec's words (for refinement comparison with `gmcbfInit`):
grey estimate = (P - 0.4*P*W) / max(G, 0.2) voxelwise. -/
def gmSpecFormula (ftiss pwm pgm : List ℚ) : List ℚ :=
  List.zipWith (fun fw g => (fw.1 - (2/5 : ℚ) * fw.1 * fw.2) / max g (1/5 : ℚ))
    (List.zip ftiss pwm) pgm

/-- Follows the spec's words: white estimate = 0.4 times the grey estimate. -/
def wmSpecFormula (ftiss pwm pgm : List ℚ) : List ℚ :=
  (gmSpecFormula ftiss pwm pgm).map (fun x => (2/5 : ℚ) * x)

/-- C2 witness inputs: P = 50, G = 0.6, W = 0.3 on a single voxel. -/
def c2Opts : Config :=
  [("mask", Val.mask [true]), ("pgm", Val.img [(3/5 : ℚ)]),
   ("pwm", Val.img [(3/10 : ℚ)])]

def c2Prev : StepResult :=
  [("mean_ftiss", Val.img [(50 : ℚ)]), ("finalMVN", Val.mvn [])]


/-- C9 witness inputs: a single-TI dataset with two repeats (pre-fit path)
and one with a single repeat (no pre-fit), run against a constant engine. -/
def c9Asl : AslImage := { tis := [2], rpts := [2], tag := 0 }

def c9Mvn : MVN := [("ftiss", [(1 : ℚ)], (1 : ℚ))]

def cE9 : Config → StepResult := fun _ => [("finalMVN", Val.mvn c9Mvn)]

def c9Wsp : Wsp := { asldata := c9Asl }

def c9bWsp : Wsp := { asldata := tAsl }

def c9Out : BasilOut :=
  match basil cE9 c9Wsp true with
  | Except.ok o => o
  | Except.error _ => { initChain := Option.none, mainChain := [] }

def c9bOut : BasilOut :=
  match basil cE9 c9bWsp true with
  | Except.ok o => o
  | Except.error _ => { initChain := Option.none, mainChain := [] }


/-- C1 counterexample/witness inputs: an engine whose result carries a
final posterior and a converged tissue mean, a chain whose second step is a
PVC initialisation step, and a two-Fabber-step chain. -/
def c1E : Config → StepResult :=
  fun _ => [("finalMVN", Val.mvn c9Mvn), ("mean_ftiss", Val.img [(50 : ℚ)])]

def c1Chain : List Step :=
  [Step.fabber [] "VB - Tissue", Step.pvcInit c2Opts "PVC initialisation"]

def c1bChain : List Step :=
  [Step.fabber [] "a", Step.fabber [("x", Val.b true)] "b"]

def c1Cfg2 : Config :=
  dset [("x", Val.b true)] "continue-from-mvn" (Val.mvn c9Mvn)

def c1Rs : List (Config × StepResult) :=
  [(([] : Config), c1E []), (c1Cfg2, c1E c1Cfg2)]


/-! ## Theorems

First the generic dictionary and string-key lemmas, then the planner and
runner lemmas, then the claim theorems. -/

section DictLemmas

variable {α : Type}

@[simp] theorem dget_nil (k : String) :
    dget ([] : List (String × α)) k = Option.none := rfl

@[simp] theorem dget_cons (k' k : String) (v : α) (rest : List (String × α)) :
    dget ((k', v) :: rest) k = if k' = k then some v else dget rest k := rfl

@[simp] theorem dset_nil (k : String) (v : α) :
    dset ([] : List (String × α)) k v = [(k, v)] := rfl

@[simp] theorem dset_cons (k' k : String) (v' v : α) (rest : List (String × α)) :
    dset ((k', v') :: rest) k v =
      if k' = k then (k, v) :: rest else (k', v') :: dset rest k v := rfl

@[simp] theorem dupdate_nil (d : List (String × α)) : dupdate d [] = d := rfl

@[simp] theorem dupdate_cons (d : List (String × α)) (k : String) (v : α)
    (rest : List (String × α)) :
    dupdate d ((k, v) :: rest) = dupdate (dset d k v) rest := rfl

theorem dget_dset_self (d : List (String × α)) (k : String) (v : α) :
    dget (dset d k v) k = some v := by
  induction d with
  | nil => simp
  | cons p rest ih =>
      obtain ⟨k', v'⟩ := p
      by_cases h : k' = k
      · simp [h]
      · simp [h, ih]

theorem dget_dset_ne (d : List (String × α)) {k' k : String} (v : α) (h : k' ≠ k) :
    dget (dset d k' v) k = dget d k := by
  induction d with
  | nil => simp [h]
  | cons p rest ih =>
      obtain ⟨k₀, v₀⟩ := p
      rw [dset_cons]
      by_cases h0 : k₀ = k'
      · have hk : ¬ k₀ = k := fun hh => h (h0.symm.trans hh)
        rw [if_pos h0, dget_cons, if_neg h, dget_cons, if_neg hk]
      · rw [if_neg h0, dget_cons, dget_cons]
        by_cases h1 : k₀ = k
        · rw [if_pos h1, if_pos h1]
        · rw [if_neg h1, if_neg h1, ih]

theorem dget_ddel_self (d : List (String × α)) (k : String) :
    dget (ddel d k) k = Option.none := by
  induction d with
  | nil => simp [ddel]
  | cons p rest ih =>
      obtain ⟨k₀, v₀⟩ := p
      by_cases h : k₀ = k <;> simp [ddel, h, ih]

theorem dget_ddel_ne (d : List (String × α)) {k' k : String} (h : k' ≠ k) :
    dget (ddel d k') k = dget d k := by
  induction d with
  | nil => simp [ddel]
  | cons p rest ih =>
      obtain ⟨k₀, v₀⟩ := p
      show dget (if k₀ = k' then ddel rest k' else (k₀, v₀) :: ddel rest k') k = _
      by_cases h0 : k₀ = k'
      · have hk : ¬ k₀ = k := fun hh => h (h0.symm.trans hh)
        rw [if_pos h0, dget_cons, if_neg hk, ih]
      · rw [if_neg h0, dget_cons, dget_cons]
        by_cases h1 : k₀ = k
        · rw [if_pos h1, if_pos h1]
        · rw [if_neg h1, if_neg h1, ih]

theorem dget_eq_none_of_not_mem_keys (d : List (String × α)) (k : String)
    (h : k ∉ d.map Prod.fst) : dget d k = Option.none := by
  induction d with
  | nil => rfl
  | cons p rest ih =>
      obtain ⟨k', v'⟩ := p
      simp only [List.map_cons, List.mem_cons] at h
      push_neg at h
      rw [dget_cons, if_neg (fun hh => h.1 hh.symm), ih h.2]

theorem dget_dupdate_of_not_key (d kw : List (String × α)) (k : String)
    (h : ∀ p ∈ kw, p.1 ≠ k) : dget (dupdate d kw) k = dget d k := by
  induction kw generalizing d with
  | nil => rfl
  | cons p rest ih =>
      obtain ⟨k', v'⟩ := p
      have hne : k' ≠ k := h (k', v') (by simp)
      have hrest : ∀ p ∈ rest, p.1 ≠ k := fun p hp => h p (by simp [hp])
      rw [dupdate_cons, ih _ hrest, dget_dset_ne _ _ hne]

theorem dget_dupdate_none (d kw : List (String × α)) (k : String)
    (h : dget kw k = Option.none) : dget (dupdate d kw) k = dget d k := by
  induction kw generalizing d with
  | nil => rfl
  | cons p rest ih =>
      obtain ⟨k', v'⟩ := p
      rw [dget_cons] at h
      by_cases hk : k' = k
      · simp [hk] at h
      · rw [if_neg hk] at h
        rw [dupdate_cons, ih _ h, dget_dset_ne _ _ hk]

theorem dget_dupdate_mem (d kw : List (String × α)) (k : String) (v : α)
    (hnd : (kw.map Prod.fst).Nodup) (h : dget kw k = some v) :
    dget (dupdate d kw) k = some v := by
  induction kw generalizing d with
  | nil => simp at h
  | cons p rest ih =>
      obtain ⟨k', v'⟩ := p
      simp only [List.map_cons, List.nodup_cons] at hnd
      rw [dget_cons] at h
      by_cases hk : k' = k
      · subst hk
        rw [if_pos rfl] at h
        have hrest : dget rest k' = Option.none :=
          dget_eq_none_of_not_mem_keys _ _ hnd.1
        rw [dupdate_cons, dget_dupdate_none _ _ _ hrest, dget_dset_self]
        exact h
      · rw [if_neg hk] at h
        rw [dupdate_cons, ih _ hnd.2 h]

theorem mem_dset (d : List (String × α)) (k : String) (v : α) (p : String × α)
    (h : p ∈ dset d k v) : p ∈ d ∨ p = (k, v) := by
  induction d with
  | nil =>
      simp at h
      right
      simp [h]
  | cons q rest ih =>
      obtain ⟨k₀, v₀⟩ := q
      by_cases h0 : k₀ = k
      · rw [dset_cons, if_pos h0] at h
        rcases List.mem_cons.mp h with h | h
        · right; exact h
        · left; exact List.mem_cons_of_mem _ h
      · rw [dset_cons, if_neg h0] at h
        rcases List.mem_cons.mp h with h | h
        · left; simp [h]
        · rcases ih h with h' | h'
          · left; exact List.mem_cons_of_mem _ h'
          · right; exact h'

theorem mem_keys_dset (d : List (String × α)) (k : String) (v : α) (k' : String)
    (h : k' ∈ (dset d k v).map Prod.fst) : k' ∈ d.map Prod.fst ∨ k' = k := by
  simp only [List.mem_map] at h
  obtain ⟨p, hp, hk⟩ := h
  rcases mem_dset d k v p hp with h' | h'
  · left; exact hk ▸ List.mem_map_of_mem Prod.fst h'
  · right; rw [← hk, h']

theorem keys_nodup_dset (d : List (String × α)) (k : String) (v : α)
    (h : (d.map Prod.fst).Nodup) : ((dset d k v).map Prod.fst).Nodup := by
  induction d with
  | nil => simp
  | cons p rest ih =>
      obtain ⟨k₀, v₀⟩ := p
      simp only [List.map_cons, List.nodup_cons] at h
      by_cases h0 : k₀ = k
      · subst h0
        simpa [List.nodup_cons] using h
      · rw [dset_cons, if_neg h0]
        simp only [List.map_cons, List.nodup_cons]
        refine ⟨fun hmem => ?_, ih h.2⟩
        rcases mem_keys_dset rest k v k₀ hmem with h' | h'
        · exact h.1 h'
        · exact h0 h'

theorem string_data_append (a b : String) : (a ++ b).data = a.data ++ b.data := rfl

theorem ne_of_take_ne (p s t : String)
    (h : t.data.take p.data.length ≠ p.data) : p ++ s ≠ t := by
  intro he
  apply h
  rw [← he, string_data_append, List.take_left]

theorem pspKey_ne (i : Nat) (t : String)
    (h : t.data.take 10 ≠ "PSP_byname".data) : pspKey i ≠ t :=
  ne_of_take_ne "PSP_byname" (toString i) t h

theorem pspSub_ne (i : Nat) (name t : String)
    (h : t.data.take 10 ≠ "PSP_byname".data) : pspSub i name ≠ t :=
  ne_of_take_ne "PSP_byname" (toString i ++ ("_" ++ name)) t h

theorem pspKey_take (i : Nat) : (pspKey i).data.take 10 = "PSP_byname".data := by
  rw [pspKey, string_data_append]
  exact List.take_left' (by decide)

theorem pspSub_take (i : Nat) (name : String) :
    (pspSub i name).data.take 10 = "PSP_byname".data := by
  rw [pspSub, string_data_append]
  exact List.take_left' (by decide)

theorem tiKey_ne (i : Nat) (t : String) (h : t.data.take 2 ≠ "ti".data) :
    tiKey i ≠ t := ne_of_take_ne "ti" (toString (i + 1)) t h

theorem rptKey_ne (i : Nat) (t : String) (h : t.data.take 3 ≠ "rpt".data) :
    rptKey i ≠ t := ne_of_take_ne "rpt" (toString (i + 1)) t h

/-! ### The workspace

`Workspace` attributes read by `basil`/`basil_steps`.  A missing workspace
attribute reads as `None` in oxasl, so optional attributes are `Option`s;
attributes that the code only ever truth-tests and assigns boolean constants
to are plain `Bool` (conflating the falsy `None` with `False`). -/

end DictLemmas

/-! ### Option assembly lemmas -/

theorem dget_condSet_ne (c : Bool) (d : Config) {k' k : String} (v : Val)
    (h : k' ≠ k) : dget (condSet c d k' v) k = dget d k := by
  cases c <;> simp [condSet, dget_dset_ne _ _ h]

theorem dget_condSet_true (d : Config) (k : String) (v : Val) :
    dget (condSet true d k v) k = some v := by
  simp [condSet, dget_dset_self]

theorem dget_condSet_false (d : Config) (k : String) (v : Val) :
    dget (condSet false d k v) k = dget d k := rfl

theorem dget_attrOpt_ne (d : Config) {k' k : String} (v : Option Val)
    (h : k' ≠ k) : dget (attrOpt d k' v) k = dget d k := by
  cases v <;> simp [attrOpt, dget_dset_ne _ _ h]

theorem dget_foldl_psp (idx : Nat) (kvs : List (String × Val)) (d : Config)
    (k : String) (h : k.data.take 10 ≠ "PSP_byname".data) :
    dget (kvs.foldl (fun acc p => dset acc (pspSub idx p.1) p.2) d) k = dget d k := by
  induction kvs generalizing d with
  | nil => rfl
  | cons p rest ih =>
      rw [List.foldl_cons, ih, dget_dset_ne _ _ (pspSub_ne idx p.1 k h)]

theorem dget_addPrior_ne (d : Config) (idx : Nat) (param : String)
    (kvs : List (String × Val)) (k : String)
    (h : k.data.take 10 ≠ "PSP_byname".data) :
    dget (addPrior d idx param kvs).1 k = dget d k := by
  simp only [addPrior]
  rw [dget_foldl_psp _ _ _ _ h, dget_dset_ne _ _ (pspKey_ne idx k h)]

theorem mem_foldl_psp (idx : Nat) (kvs : List (String × Val)) (d : Config)
    (p : String × Val)
    (hp : p ∈ kvs.foldl (fun acc q => dset acc (pspSub idx q.1) q.2) d) :
    p ∈ d ∨ p.1.data.take 10 = "PSP_byname".data := by
  induction kvs generalizing d with
  | nil => exact Or.inl hp
  | cons q rest ih =>
      rw [List.foldl_cons] at hp
      rcases ih _ hp with h' | h'
      · rcases mem_dset _ _ _ _ h' with h'' | h''
        · exact Or.inl h''
        · right
          rw [h'']
          exact pspSub_take idx q.1
      · exact Or.inr h'

theorem mem_addPrior (d : Config) (idx : Nat) (param : String)
    (kvs : List (String × Val)) (p : String × Val)
    (hp : p ∈ (addPrior d idx param kvs).1) :
    p ∈ d ∨ p.1.data.take 10 = "PSP_byname".data := by
  simp only [addPrior] at hp
  rcases mem_foldl_psp _ _ _ _ hp with h' | h'
  · rcases mem_dset _ _ _ _ h' with h'' | h''
    · exact Or.inl h''
    · right
      rw [h'']
      exact pspKey_take idx
  · exact Or.inr h'

theorem keys_nodup_foldl_psp (idx : Nat) (kvs : List (String × Val)) (d : Config)
    (h : (d.map Prod.fst).Nodup) :
    (((kvs.foldl (fun acc q => dset acc (pspSub idx q.1) q.2) d)).map Prod.fst).Nodup := by
  induction kvs generalizing d with
  | nil => exact h
  | cons q rest ih =>
      rw [List.foldl_cons]
      exact ih _ (keys_nodup_dset _ _ _ h)

theorem keys_nodup_addPrior (d : Config) (idx : Nat) (param : String)
    (kvs : List (String × Val)) (h : (d.map Prod.fst).Nodup) :
    (((addPrior d idx param kvs).1).map Prod.fst).Nodup := by
  simp only [addPrior]
  exact keys_nodup_foldl_psp _ _ _ (keys_nodup_dset _ _ _ h)

theorem dget_tiOptions_aux (l : List Nat) (a : AslImage) (d : Config) (k : String)
    (h2 : k.data.take 2 ≠ "ti".data) (h3 : k.data.take 3 ≠ "rpt".data) :
    dget (l.foldl (fun acc i =>
      dset (dset acc (tiKey i) (Val.q (a.tis.getD i 0)))
        (rptKey i) (Val.n (a.rpts.getD i 0))) d) k = dget d k := by
  induction l generalizing d with
  | nil => rfl
  | cons i rest ih =>
      rw [List.foldl_cons, ih, dget_dset_ne _ _ (rptKey_ne i k h3),
        dget_dset_ne _ _ (tiKey_ne i k h2)]

theorem dget_tiOptions_ne (a : AslImage) (d : Config) (k : String)
    (h2 : k.data.take 2 ≠ "ti".data) (h3 : k.data.take 3 ≠ "rpt".data) :
    dget (tiOptions a d) k = dget d k :=
  dget_tiOptions_aux _ a d k h2 h3

theorem dget_wspAttrOptions_ne (wsp : Wsp) (d : Config) (k : String)
    (h : ¬ k ∈ (["t1", "t1b", "bat", "tau", "casl", "slicedt", "sliceband",
      "FA", "mask"] : List String)) :
    dget (wspAttrOptions wsp d) k = dget d k := by
  simp only [List.mem_cons, List.not_mem_nil, or_false] at h
  push_neg at h
  obtain ⟨n1, n2, n3, n4, n5, n6, n7, n8, n9⟩ := h
  unfold wspAttrOptions
  rw [dget_attrOpt_ne _ _ (Ne.symm n9), dget_attrOpt_ne _ _ (Ne.symm n8),
    dget_attrOpt_ne _ _ (Ne.symm n7), dget_attrOpt_ne _ _ (Ne.symm n6),
    dget_attrOpt_ne _ _ (Ne.symm n5), dget_attrOpt_ne _ _ (Ne.symm n4),
    dget_attrOpt_ne _ _ (Ne.symm n3), dget_attrOpt_ne _ _ (Ne.symm n2),
    dget_attrOpt_ne _ _ (Ne.symm n1)]

theorem dget_assembleOptions_base (wsp : Wsp) (a : AslImage) (kw : Config)
    (k : String) (hk : dget kw k = Option.none)
    (h9 : ¬ k ∈ (["t1", "t1b", "bat", "tau", "casl", "slicedt", "sliceband",
      "FA", "mask"] : List String))
    (h2 : k.data.take 2 ≠ "ti".data) (h3 : k.data.take 3 ≠ "rpt".data) :
    dget (assembleOptions wsp a kw) k = dget (baseOptions a) k := by
  unfold assembleOptions
  rw [dget_dupdate_none _ _ _ hk, dget_wspAttrOptions_ne _ _ _ h9,
    dget_tiOptions_ne _ _ _ h2 h3]

theorem dget_assembleOptions_kwargs (wsp : Wsp) (a : AslImage) (kw : Config)
    (k : String) (v : Val) (hnd : (kw.map Prod.fst).Nodup)
    (h : dget kw k = some v) :
    dget (assembleOptions wsp a kw) k = some v :=
  dget_dupdate_mem _ _ _ _ hnd h

/-! ### `preOptions` lemmas -/

theorem dget_preOptions_ne (wsp : Wsp) (o : Config) (k : String)
    (h : ¬ k ∈ (["inctiss", "incbat", "inferbat", "incart", "incpc", "inctau",
      "inct1", "incpve", "continue-from-mvn"] : List String))
    (hp : k.data.take 10 ≠ "PSP_byname".data) :
    dget (preOptions wsp o).1 k = dget o k := by
  simp only [List.mem_cons, List.not_mem_nil, or_false] at h
  push_neg at h
  obtain ⟨m1, m2, m3, m4, m5, m6, m7, m8, m9⟩ := h
  cases htim : wsp.t1im with
  | none =>
      simp only [preOptions, htim]
      rw [dget_condSet_ne _ _ _ (Ne.symm m9), dget_condSet_ne _ _ _ (Ne.symm m8),
        dget_condSet_ne _ _ _ (Ne.symm m7), dget_condSet_ne _ _ _ (Ne.symm m6),
        dget_condSet_ne _ _ _ (Ne.symm m5), dget_condSet_ne _ _ _ (Ne.symm m4),
        dget_condSet_ne _ _ _ (Ne.symm m3), dget_condSet_ne _ _ _ (Ne.symm m2),
        dget_condSet_ne _ _ _ (Ne.symm m1)]
  | some im =>
      simp only [preOptions, htim]
      rw [dget_addPrior_ne _ _ _ _ _ hp,
        dget_condSet_ne _ _ _ (Ne.symm m9), dget_condSet_ne _ _ _ (Ne.symm m8),
        dget_condSet_ne _ _ _ (Ne.symm m7), dget_condSet_ne _ _ _ (Ne.symm m6),
        dget_condSet_ne _ _ _ (Ne.symm m5), dget_condSet_ne _ _ _ (Ne.symm m4),
        dget_condSet_ne _ _ _ (Ne.symm m3), dget_condSet_ne _ _ _ (Ne.symm m2),
        dget_condSet_ne _ _ _ (Ne.symm m1)]

theorem dget_preOptions_inctiss (wsp : Wsp) (o : Config)
    (h : truthy wsp.infertiss = true) :
    dget (preOptions wsp o).1 "inctiss" = some (Val.b true) := by
  cases htim : wsp.t1im with
  | none =>
      simp only [preOptions, htim]
      rw [dget_condSet_ne _ _ _ (by decide), dget_condSet_ne _ _ _ (by decide),
        dget_condSet_ne _ _ _ (by decide), dget_condSet_ne _ _ _ (by decide),
        dget_condSet_ne _ _ _ (by decide), dget_condSet_ne _ _ _ (by decide),
        dget_condSet_ne _ _ _ (by decide), dget_condSet_ne _ _ _ (by decide),
        h, dget_condSet_true]
  | some im =>
      simp only [preOptions, htim]
      rw [dget_addPrior_ne _ _ _ _ _ (by decide),
        dget_condSet_ne _ _ _ (by decide), dget_condSet_ne _ _ _ (by decide),
        dget_condSet_ne _ _ _ (by decide), dget_condSet_ne _ _ _ (by decide),
        dget_condSet_ne _ _ _ (by decide), dget_condSet_ne _ _ _ (by decide),
        dget_condSet_ne _ _ _ (by decide), dget_condSet_ne _ _ _ (by decide),
        h, dget_condSet_true]

theorem dget_preOptions_incart (wsp : Wsp) (o : Config)
    (h : truthy wsp.inferart = true) :
    dget (preOptions wsp o).1 "incart" = some (Val.b true) := by
  cases htim : wsp.t1im with
  | none =>
      simp only [preOptions, htim]
      rw [dget_condSet_ne _ _ _ (by decide), dget_condSet_ne _ _ _ (by decide),
        dget_condSet_ne _ _ _ (by decide), dget_condSet_ne _ _ _ (by decide),
        dget_condSet_ne _ _ _ (by decide), h, dget_condSet_true]
  | some im =>
      simp only [preOptions, htim]
      rw [dget_addPrior_ne _ _ _ _ _ (by decide),
        dget_condSet_ne _ _ _ (by decide), dget_condSet_ne _ _ _ (by decide),
        dget_condSet_ne _ _ _ (by decide), dget_condSet_ne _ _ _ (by decide),
        dget_condSet_ne _ _ _ (by decide), h, dget_condSet_true]

theorem dget_preOptions_incart_false (wsp : Wsp) (o : Config)
    (h : truthy wsp.inferart = false) :
    dget (preOptions wsp o).1 "incart" = dget o "incart" := by
  cases htim : wsp.t1im with
  | none =>
      simp only [preOptions, htim]
      rw [dget_condSet_ne _ _ _ (by decide), dget_condSet_ne _ _ _ (by decide),
        dget_condSet_ne _ _ _ (by decide), dget_condSet_ne _ _ _ (by decide),
        dget_condSet_ne _ _ _ (by decide), h, dget_condSet_false,
        dget_condSet_ne _ _ _ (by decide), dget_condSet_ne _ _ _ (by decide),
        dget_condSet_ne _ _ _ (by decide)]
  | some im =>
      simp only [preOptions, htim]
      rw [dget_addPrior_ne _ _ _ _ _ (by decide),
        dget_condSet_ne _ _ _ (by decide), dget_condSet_ne _ _ _ (by decide),
        dget_condSet_ne _ _ _ (by decide), dget_condSet_ne _ _ _ (by decide),
        dget_condSet_ne _ _ _ (by decide), h, dget_condSet_false,
        dget_condSet_ne _ _ _ (by decide), dget_condSet_ne _ _ _ (by decide),
        dget_condSet_ne _ _ _ (by decide)]

theorem dget_preOptions_incpc (wsp : Wsp) (o : Config)
    (h : wsp.inferpc = true) :
    dget (preOptions wsp o).1 "incpc" = some (Val.b true) := by
  cases htim : wsp.t1im with
  | none =>
      simp only [preOptions, htim]
      rw [dget_condSet_ne _ _ _ (by decide), dget_condSet_ne _ _ _ (by decide),
        dget_condSet_ne _ _ _ (by decide), dget_condSet_ne _ _ _ (by decide),
        h, dget_condSet_true]
  | some im =>
      simp only [preOptions, htim]
      rw [dget_addPrior_ne _ _ _ _ _ (by decide),
        dget_condSet_ne _ _ _ (by decide), dget_condSet_ne _ _ _ (by decide),
        dget_condSet_ne _ _ _ (by decide), dget_condSet_ne _ _ _ (by decide),
        h, dget_condSet_true]

theorem dget_preOptions_inctau (wsp : Wsp) (o : Config)
    (h : truthy wsp.infertau = true) :
    dget (preOptions wsp o).1 "inctau" = some (Val.b true) := by
  cases htim : wsp.t1im with
  | none =>
      simp only [preOptions, htim]
      rw [dget_condSet_ne _ _ _ (by decide), dget_condSet_ne _ _ _ (by decide),
        dget_condSet_ne _ _ _ (by decide), h, dget_condSet_true]
  | some im =>
      simp only [preOptions, htim]
      rw [dget_addPrior_ne _ _ _ _ _ (by decide),
        dget_condSet_ne _ _ _ (by decide), dget_condSet_ne _ _ _ (by decide),
        dget_condSet_ne _ _ _ (by decide), h, dget_condSet_true]

theorem dget_preOptions_inctau_false (wsp : Wsp) (o : Config)
    (h : truthy wsp.infertau = false) :
    dget (preOptions wsp o).1 "inctau" = dget o "inctau" := by
  cases htim : wsp.t1im with
  | none =>
      simp only [preOptions, htim]
      rw [dget_condSet_ne _ _ _ (by decide), dget_condSet_ne _ _ _ (by decide),
        dget_condSet_ne _ _ _ (by decide), h, dget_condSet_false,
        dget_condSet_ne _ _ _ (by decide), dget_condSet_ne _ _ _ (by decide),
        dget_condSet_ne _ _ _ (by decide), dget_condSet_ne _ _ _ (by decide),
        dget_condSet_ne _ _ _ (by decide)]
  | some im =>
      simp only [preOptions, htim]
      rw [dget_addPrior_ne _ _ _ _ _ (by decide),
        dget_condSet_ne _ _ _ (by decide), dget_condSet_ne _ _ _ (by decide),
        dget_condSet_ne _ _ _ (by decide), h, dget_condSet_false,
        dget_condSet_ne _ _ _ (by decide), dget_condSet_ne _ _ _ (by decide),
        dget_condSet_ne _ _ _ (by decide), dget_condSet_ne _ _ _ (by decide),
        dget_condSet_ne _ _ _ (by decide)]

theorem dget_preOptions_inct1 (wsp : Wsp) (o : Config)
    (h : wsp.infert1 = true) :
    dget (preOptions wsp o).1 "inct1" = some (Val.b true) := by
  cases htim : wsp.t1im with
  | none =>
      simp only [preOptions, htim]
      rw [dget_condSet_ne _ _ _ (by decide), dget_condSet_ne _ _ _ (by decide),
        h, dget_condSet_true]
  | some im =>
      simp only [preOptions, htim]
      rw [dget_addPrior_ne _ _ _ _ _ (by decide),
        dget_condSet_ne _ _ _ (by decide), dget_condSet_ne _ _ _ (by decide),
        h, dget_condSet_true]

theorem dget_preOptions_incpve (wsp : Wsp) (o : Config)
    (h : wsp.pvcorr = true) :
    dget (preOptions wsp o).1 "incpve" = some (Val.b true) := by
  cases htim : wsp.t1im with
  | none =>
      simp only [preOptions, htim]
      rw [dget_condSet_ne _ _ _ (by decide), h, dget_condSet_true]
  | some im =>
      simp only [preOptions, htim]
      rw [dget_addPrior_ne _ _ _ _ _ (by decide),
        dget_condSet_ne _ _ _ (by decide), h, dget_condSet_true]

theorem dget_preOptions_incpve_false (wsp : Wsp) (o : Config)
    (h : wsp.pvcorr = false) :
    dget (preOptions wsp o).1 "incpve" = dget o "incpve" := by
  cases htim : wsp.t1im with
  | none =>
      simp only [preOptions, htim]
      rw [dget_condSet_ne _ _ _ (by decide), h, dget_condSet_false,
        dget_condSet_ne _ _ _ (by decide), dget_condSet_ne _ _ _ (by decide),
        dget_condSet_ne _ _ _ (by decide), dget_condSet_ne _ _ _ (by decide),
        dget_condSet_ne _ _ _ (by decide), dget_condSet_ne _ _ _ (by decide),
        dget_condSet_ne _ _ _ (by decide)]
  | some im =>
      simp only [preOptions, htim]
      rw [dget_addPrior_ne _ _ _ _ _ (by decide),
        dget_condSet_ne _ _ _ (by decide), h, dget_condSet_false,
        dget_condSet_ne _ _ _ (by decide), dget_condSet_ne _ _ _ (by decide),
        dget_condSet_ne _ _ _ (by decide), dget_condSet_ne _ _ _ (by decide),
        dget_condSet_ne _ _ _ (by decide), dget_condSet_ne _ _ _ (by decide),
        dget_condSet_ne _ _ _ (by decide)]

theorem dget_preOptions_cfm (wsp : Wsp) (o : Config)
    (h : valTruthy wsp.initmvn = true) :
    dget (preOptions wsp o).1 "continue-from-mvn" = some (optV wsp.initmvn) := by
  cases htim : wsp.t1im with
  | none =>
      simp only [preOptions, htim]
      rw [h, dget_condSet_true]
  | some im =>
      simp only [preOptions, htim]
      rw [dget_addPrior_ne _ _ _ _ _ (by decide), h, dget_condSet_true]

/-! ### Module invariant lemmas -/

theorem FabInv.intro' (k : String) (v : Option Val) (o svb : Config)
    (stps : List Step) (c : String) (sd : Option String) (sp : Nat)
    (h1 : dget o k = v)
    (h2 : ∀ opts d, Step.fabber opts d ∈ stps → dget opts k = v) :
    FabInv k v
      { options := o, svb := svb, steps := stps, components := c,
        stepDesc := sd, spriors := sp } := ⟨h1, h2⟩

theorem fabMem_append (k : String) (v : Option Val) (stps : List Step)
    (o' : Config) (d' : String)
    (hs : ∀ opts d, Step.fabber opts d ∈ stps → dget opts k = v)
    (ho : dget o' k = v) :
    ∀ opts d, Step.fabber opts d ∈ stps ++ [Step.fabber o' d'] → dget opts k = v := by
  intro opts d hm
  rcases List.mem_append.mp hm with h' | h'
  · exact hs _ _ h'
  · simp only [List.mem_singleton, Step.fabber.injEq] at h'
    obtain ⟨rfl, rfl⟩ := h'
    exact ho

theorem fabMem_if_append (k : String) (v : Option Val) (c : Bool)
    (stps : List Step) (o' : Config) (d' : String)
    (hs : ∀ opts d, Step.fabber opts d ∈ stps → dget opts k = v)
    (ho : dget o' k = v) :
    ∀ opts d, Step.fabber opts d ∈
      (if c then stps else stps ++ [Step.fabber o' d']) → dget opts k = v := by
  cases c
  · simpa using fabMem_append k v stps o' d' hs ho
  · simpa using hs

theorem tissueModule_fabInv (wsp : Wsp) (st : PlanState) (k : String)
    (v : Option Val)
    (hd : ("infertiss" : String) ≠ k ∨ truthy wsp.infertiss = false)
    (hI : FabInv k v st) : FabInv k v (tissueModule wsp st) := by
  unfold tissueModule
  by_cases hf : truthy wsp.infertiss = true
  · have h1 : ("infertiss" : String) ≠ k := by
      rcases hd with h | h
      · exact h
      · rw [hf] at h
        exact Bool.noConfusion h
    rw [if_pos hf]
    refine FabInv.intro' _ _ _ _ _ _ _ _ ?_ ?_
    · rw [dget_dset_ne _ _ h1]
      exact hI.1
    · exact fabMem_if_append _ _ _ _ _ _ hI.2
        (by rw [dget_dset_ne _ _ h1]; exact hI.1)
  · rw [if_neg hf]
    exact hI

theorem fabMem_append_pvc (k : String) (v : Option Val) (stps : List Step)
    (o' : Config) (d' : String)
    (hs : ∀ opts d, Step.fabber opts d ∈ stps → dget opts k = v) :
    ∀ opts d, Step.fabber opts d ∈ stps ++ [Step.pvcInit o' d'] → dget opts k = v := by
  intro opts d hm
  rcases List.mem_append.mp hm with h' | h'
  · exact hs _ _ h'
  · simp at h'

theorem dget_ite_dset_ne (c : Bool) (d : Config) {k' k : String} (v : Val)
    (h : k' ≠ k) : dget (if c then dset d k' v else d) k = dget d k := by
  cases c <;> simp [dget_dset_ne _ _ h]

theorem dget_ite_dset_ne' (c : Bool) (d : Config) {k' k : String} (v : Val)
    (h : k' ≠ k ∨ c = false) : dget (if c then dset d k' v else d) k = dget d k := by
  rcases h with h | h
  · exact dget_ite_dset_ne c d v h
  · rw [h]
    simp

theorem artModule_fabInv (wsp : Wsp) (st : PlanState) (k : String)
    (v : Option Val)
    (hd : ("inferart" : String) ≠ k ∨ truthy wsp.inferart = false)
    (hI : FabInv k v st) : FabInv k v (artModule wsp st) := by
  unfold artModule
  by_cases hf : truthy wsp.inferart = true
  · have h1 : ("inferart" : String) ≠ k := by
      rcases hd with h | h
      · exact h
      · rw [hf] at h
        exact Bool.noConfusion h
    rw [if_pos hf]
    refine FabInv.intro' _ _ _ _ _ _ _ _ ?_ ?_
    · rw [dget_dset_ne _ _ h1]
      exact hI.1
    · exact fabMem_if_append _ _ _ _ _ _ hI.2
        (by rw [dget_dset_ne _ _ h1]; exact hI.1)
  · rw [if_neg hf]
    exact hI

theorem tauModule_fabInv (wsp : Wsp) (st : PlanState) (k : String)
    (v : Option Val)
    (hd : ("infertau" : String) ≠ k ∨ truthy wsp.infertau = false)
    (hI : FabInv k v st) : FabInv k v (tauModule wsp st) := by
  unfold tauModule
  by_cases hf : truthy wsp.infertau = true
  · have h1 : ("infertau" : String) ≠ k := by
      rcases hd with h | h
      · exact h
      · rw [hf] at h
        exact Bool.noConfusion h
    rw [if_pos hf]
    refine FabInv.intro' _ _ _ _ _ _ _ _ ?_ ?_
    · rw [dget_dset_ne _ _ h1]
      exact hI.1
    · exact fabMem_if_append _ _ _ _ _ _ hI.2
        (by rw [dget_dset_ne _ _ h1]; exact hI.1)
  · rw [if_neg hf]
    exact hI

theorem t1Module_fabInv (wsp : Wsp) (st : PlanState) (k : String)
    (v : Option Val)
    (hd : ("infert1" : String) ≠ k ∨ wsp.infert1 = false)
    (hI : FabInv k v st) : FabInv k v (t1Module wsp st) := by
  unfold t1Module
  by_cases hf : wsp.infert1 = true
  · have h1 : ("infert1" : String) ≠ k := by
      rcases hd with h | h
      · exact h
      · rw [hf] at h
        exact Bool.noConfusion h
    rw [if_pos hf]
    refine FabInv.intro' _ _ _ _ _ _ _ _ ?_ ?_
    · rw [dget_dset_ne _ _ h1]
      exact hI.1
    · exact fabMem_if_append _ _ _ _ _ _ hI.2
        (by rw [dget_dset_ne _ _ h1]; exact hI.1)
  · rw [if_neg hf]
    exact hI

theorem extModule_fabInv (id ie : Bool) (wsp : Wsp) (st : PlanState) (k : String)
    (v : Option Val)
    (hd1 : ("inferdisp" : String) ≠ k ∨ id = false)
    (hd2 : ("inferexch" : String) ≠ k ∨ ie = false)
    (hd3 : ("inferpc" : String) ≠ k ∨ wsp.inferpc = false)
    (hI : FabInv k v st) : FabInv k v (extModule id ie wsp st) := by
  unfold extModule
  by_cases hf : (id || ie || wsp.inferpc) = true
  · rw [if_pos hf]
    have hopt : dget (if wsp.inferpc then
        dset (if ie then dset (if id then dset st.options "inferdisp" (Val.b true)
          else st.options) "inferexch" (Val.b true)
        else (if id then dset st.options "inferdisp" (Val.b true) else st.options))
          "inferpc" (Val.b true)
      else (if ie then dset (if id then dset st.options "inferdisp" (Val.b true)
          else st.options) "inferexch" (Val.b true)
        else (if id then dset st.options "inferdisp" (Val.b true) else st.options))) k
        = v := by
      rw [dget_ite_dset_ne' _ _ _ hd3, dget_ite_dset_ne' _ _ _ hd2,
        dget_ite_dset_ne' _ _ _ hd1]
      exact hI.1
    refine FabInv.intro' _ _ _ _ _ _ _ _ hopt ?_
    exact fabMem_if_append _ _ _ _ _ _ hI.2 hopt
  · rw [if_neg hf]
    exact hI

theorem pvcModule_fabInv (pc : Bool) (wsp : Wsp) (a : AslImage) (st : PlanState)
    (k : String) (v : Option Val)
    (hd : ("pvcorr" : String) ≠ k ∨ pc = false)
    (hp : k.data.take 10 ≠ "PSP_byname".data) (hI : FabInv k v st) :
    FabInv k v (pvcModule pc wsp a st) := by
  unfold pvcModule
  by_cases hf : pc = true
  · have h1 : ("pvcorr" : String) ≠ k := by
      rcases hd with h | h
      · exact h
      · rw [hf] at h
        exact Bool.noConfusion h
    rw [if_pos hf]
    refine FabInv.intro' _ _ _ _ _ _ _ _ ?_ ?_
    · rw [dget_addPrior_ne _ _ _ _ _ hp, dget_addPrior_ne _ _ _ _ _ hp,
        dget_addPrior_ne _ _ _ _ _ hp, dget_dset_ne _ _ h1]
      exact hI.1
    · by_cases he : st.steps.isEmpty = true
      · rw [if_pos he]
        exact hI.2
      · rw [if_neg he]
        exact fabMem_append_pvc _ _ _ _ _ hI.2
  · rw [if_neg hf]
    exact hI

theorem svb_not_key_of_ok (svb : Config) (k : String) (hkeys : SvbKeysOk svb)
    (hsvb : ¬ k ∈ (["method", "param-spatial-priors", "convergence",
      "max-iterations"] : List String))
    (hp : k.data.take 10 ≠ "PSP_byname".data) :
    ∀ p ∈ svb, p.1 ≠ k := by
  simp only [List.mem_cons, List.not_mem_nil, or_false] at hsvb
  push_neg at hsvb
  obtain ⟨n1, n2, n3, n4⟩ := hsvb
  intro p hp'
  rcases hkeys p hp' with h | h | h | h | h
  · rw [h]; exact fun he => n1 he.symm
  · rw [h]; exact fun he => n2 he.symm
  · rw [h]; exact fun he => n3 he.symm
  · rw [h]; exact fun he => n4 he.symm
  · intro he
    apply hp
    rw [← he]
    exact h

theorem spatialModule_fabInv (sp ones : Bool) (st : PlanState) (k : String)
    (v : Option Val)
    (hmt : ("max-trials" : String) ≠ k)
    (hsvb : ¬ k ∈ (["method", "param-spatial-priors", "convergence",
      "max-iterations"] : List String))
    (hp : k.data.take 10 ≠ "PSP_byname".data)
    (hkeys : SvbKeysOk st.svb) (hI : FabInv k v st) :
    FabInv k v (spatialModule sp ones st) := by
  unfold spatialModule
  by_cases hf : sp = true
  · rw [if_pos hf]
    have hopt : dget (ddel (dupdate st.options st.svb) "max-trials") k = v := by
      rw [dget_ddel_ne _ hmt,
        dget_dupdate_of_not_key _ _ _ (svb_not_key_of_ok _ _ hkeys hsvb hp)]
      exact hI.1
    refine FabInv.intro' _ _ _ _ _ _ _ _ hopt ?_
    exact fabMem_if_append _ _ _ _ _ _ hI.2 hopt
  · rw [if_neg hf]
    exact hI

/-! ### Spatial-options (svb) shape lemmas -/

theorem tissueModule_svb_dget (wsp : Wsp) (st : PlanState) (k : String)
    (hp : k.data.take 10 ≠ "PSP_byname".data) :
    dget (tissueModule wsp st).svb k = dget st.svb k := by
  unfold tissueModule
  by_cases hf : truthy wsp.infertiss = true
  · rw [if_pos hf]
    exact dget_addPrior_ne _ _ _ _ _ hp
  · rw [if_neg hf]

theorem artModule_svb_dget (wsp : Wsp) (st : PlanState) (k : String)
    (hp : k.data.take 10 ≠ "PSP_byname".data) :
    dget (artModule wsp st).svb k = dget st.svb k := by
  unfold artModule
  by_cases hf : truthy wsp.inferart = true
  · rw [if_pos hf]
    exact dget_addPrior_ne _ _ _ _ _ hp
  · rw [if_neg hf]

theorem tauModule_svb (wsp : Wsp) (st : PlanState) :
    (tauModule wsp st).svb = st.svb := by
  unfold tauModule
  by_cases hf : truthy wsp.infertau = true
  · rw [if_pos hf]
  · rw [if_neg hf]

theorem extModule_svb (id ie : Bool) (wsp : Wsp) (st : PlanState) :
    (extModule id ie wsp st).svb = st.svb := by
  unfold extModule
  by_cases hf : (id || ie || wsp.inferpc) = true
  · rw [if_pos hf]
  · rw [if_neg hf]

theorem t1Module_svb (wsp : Wsp) (st : PlanState) :
    (t1Module wsp st).svb = st.svb := by
  unfold t1Module
  by_cases hf : wsp.infert1 = true
  · rw [if_pos hf]
  · rw [if_neg hf]

theorem pvcModule_svb (pc : Bool) (wsp : Wsp) (a : AslImage) (st : PlanState) :
    (pvcModule pc wsp a st).svb = st.svb := by
  unfold pvcModule
  by_cases hf : pc = true
  · rw [if_pos hf]
  · rw [if_neg hf]

theorem tissueModule_svbKeys (wsp : Wsp) (st : PlanState)
    (hk : SvbKeysOk st.svb) : SvbKeysOk (tissueModule wsp st).svb := by
  unfold tissueModule
  by_cases hf : truthy wsp.infertiss = true
  · rw [if_pos hf]
    intro p hp
    rcases mem_addPrior _ _ _ _ _ hp with h' | h'
    · exact hk p h'
    · exact Or.inr (Or.inr (Or.inr (Or.inr h')))
  · rw [if_neg hf]
    exact hk

theorem artModule_svbKeys (wsp : Wsp) (st : PlanState)
    (hk : SvbKeysOk st.svb) : SvbKeysOk (artModule wsp st).svb := by
  unfold artModule
  by_cases hf : truthy wsp.inferart = true
  · rw [if_pos hf]
    intro p hp
    rcases mem_addPrior _ _ _ _ _ hp with h' | h'
    · exact hk p h'
    · exact Or.inr (Or.inr (Or.inr (Or.inr h')))
  · rw [if_neg hf]
    exact hk

theorem tissueModule_svb_nodup (wsp : Wsp) (st : PlanState)
    (hn : (st.svb.map Prod.fst).Nodup) :
    (((tissueModule wsp st).svb).map Prod.fst).Nodup := by
  unfold tissueModule
  by_cases hf : truthy wsp.infertiss = true
  · rw [if_pos hf]
    exact keys_nodup_addPrior _ _ _ _ hn
  · rw [if_neg hf]
    exact hn

theorem artModule_svb_nodup (wsp : Wsp) (st : PlanState)
    (hn : (st.svb.map Prod.fst).Nodup) :
    (((artModule wsp st).svb).map Prod.fst).Nodup := by
  unfold artModule
  by_cases hf : truthy wsp.inferart = true
  · rw [if_pos hf]
    exact keys_nodup_addPrior _ _ _ _ hn
  · rw [if_neg hf]
    exact hn

/-! ### Step-list shape lemmas -/

theorem tissueModule_steps_onestep (wsp : Wsp) (st : PlanState)
    (ho : wsp.onestep = true) : (tissueModule wsp st).steps = st.steps := by
  unfold tissueModule
  by_cases hf : truthy wsp.infertiss = true
  · rw [if_pos hf]
    show (if wsp.onestep then st.steps else _) = st.steps
    rw [if_pos ho]
  · rw [if_neg hf]

theorem artModule_steps_onestep (wsp : Wsp) (st : PlanState)
    (ho : wsp.onestep = true) : (artModule wsp st).steps = st.steps := by
  unfold artModule
  by_cases hf : truthy wsp.inferart = true
  · rw [if_pos hf]
    show (if wsp.onestep then st.steps else _) = st.steps
    rw [if_pos ho]
  · rw [if_neg hf]

theorem tauModule_steps_onestep (wsp : Wsp) (st : PlanState)
    (ho : wsp.onestep = true) : (tauModule wsp st).steps = st.steps := by
  unfold tauModule
  by_cases hf : truthy wsp.infertau = true
  · rw [if_pos hf]
    show (if wsp.onestep then st.steps else _) = st.steps
    rw [if_pos ho]
  · rw [if_neg hf]

theorem extModule_steps_onestep (id ie : Bool) (wsp : Wsp) (st : PlanState)
    (ho : wsp.onestep = true) : (extModule id ie wsp st).steps = st.steps := by
  unfold extModule
  by_cases hf : (id || ie || wsp.inferpc) = true
  · rw [if_pos hf]
    show (if wsp.onestep then st.steps else _) = st.steps
    rw [if_pos ho]
  · rw [if_neg hf]

theorem t1Module_steps_onestep (wsp : Wsp) (st : PlanState)
    (ho : wsp.onestep = true) : (t1Module wsp st).steps = st.steps := by
  unfold t1Module
  by_cases hf : wsp.infert1 = true
  · rw [if_pos hf]
    show (if wsp.onestep then st.steps else _) = st.steps
    rw [if_pos ho]
  · rw [if_neg hf]

theorem pvcModule_steps_empty (pc : Bool) (wsp : Wsp) (a : AslImage)
    (st : PlanState) (h : st.steps = []) : (pvcModule pc wsp a st).steps = [] := by
  unfold pvcModule
  by_cases hf : pc = true
  · rw [if_pos hf]
    show (if st.steps.isEmpty then st.steps else _) = []
    rw [h]
    rfl
  · rw [if_neg hf]
    exact h

theorem spatialModule_steps_onestep (sp : Bool) (st : PlanState) :
    (spatialModule sp true st).steps = st.steps := by
  unfold spatialModule
  by_cases hf : sp = true
  · rw [if_pos hf]
    simp
  · rw [if_neg hf]

theorem planModules_steps_onestep (wsp : Wsp) (a : AslImage)
    (id ie pc sp : Bool) (st : PlanState) (ho : wsp.onestep = true)
    (h0 : st.steps = []) :
    (planModules wsp a id ie pc sp st).steps = [] := by
  unfold planModules
  rw [show wsp.onestep = true from ho]
  rw [spatialModule_steps_onestep, pvcModule_steps_empty]
  rw [t1Module_steps_onestep _ _ ho, extModule_steps_onestep _ _ _ _ ho,
    tauModule_steps_onestep _ _ ho, artModule_steps_onestep _ _ ho,
    tissueModule_steps_onestep _ _ ho, h0]

/-! ### Head-is-Fabber lemmas -/

theorem headFab_append_fabber (l : List Step) (o : Config) (d : String)
    (h : HeadFab l) : HeadFab (l ++ [Step.fabber o d]) := by
  rcases h with h | ⟨o', d', r, h⟩
  · right
    exact ⟨o, d, [], by rw [h]; rfl⟩
  · right
    exact ⟨o', d', r ++ [Step.fabber o d], by rw [h]; rfl⟩

theorem headFab_if_append_fabber (c : Bool) (l : List Step) (o : Config)
    (d : String) (h : HeadFab l) :
    HeadFab (if c then l else l ++ [Step.fabber o d]) := by
  cases c
  · simpa using headFab_append_fabber l o d h
  · simpa using h

theorem tissueModule_headFab (wsp : Wsp) (st : PlanState)
    (h : HeadFab st.steps) : HeadFab (tissueModule wsp st).steps := by
  unfold tissueModule
  by_cases hf : truthy wsp.infertiss = true
  · rw [if_pos hf]
    exact headFab_if_append_fabber _ _ _ _ h
  · rw [if_neg hf]
    exact h

theorem artModule_headFab (wsp : Wsp) (st : PlanState)
    (h : HeadFab st.steps) : HeadFab (artModule wsp st).steps := by
  unfold artModule
  by_cases hf : truthy wsp.inferart = true
  · rw [if_pos hf]
    exact headFab_if_append_fabber _ _ _ _ h
  · rw [if_neg hf]
    exact h

theorem tauModule_headFab (wsp : Wsp) (st : PlanState)
    (h : HeadFab st.steps) : HeadFab (tauModule wsp st).steps := by
  unfold tauModule
  by_cases hf : truthy wsp.infertau = true
  · rw [if_pos hf]
    exact headFab_if_append_fabber _ _ _ _ h
  · rw [if_neg hf]
    exact h

theorem extModule_headFab (id ie : Bool) (wsp : Wsp) (st : PlanState)
    (h : HeadFab st.steps) : HeadFab (extModule id ie wsp st).steps := by
  unfold extModule
  by_cases hf : (id || ie || wsp.inferpc) = true
  · rw [if_pos hf]
    exact headFab_if_append_fabber _ _ _ _ h
  · rw [if_neg hf]
    exact h

theorem t1Module_headFab (wsp : Wsp) (st : PlanState)
    (h : HeadFab st.steps) : HeadFab (t1Module wsp st).steps := by
  unfold t1Module
  by_cases hf : wsp.infert1 = true
  · rw [if_pos hf]
    exact headFab_if_append_fabber _ _ _ _ h
  · rw [if_neg hf]
    exact h

theorem pvcModule_headFab (pc : Bool) (wsp : Wsp) (a : AslImage)
    (st : PlanState) (h : HeadFab st.steps) :
    HeadFab (pvcModule pc wsp a st).steps := by
  unfold pvcModule
  by_cases hf : pc = true
  · rw [if_pos hf]
    show HeadFab (if st.steps.isEmpty then st.steps else _)
    rcases h with h | ⟨o', d', r, h'⟩
    · rw [h]
      left
      rfl
    · rw [h']
      show HeadFab (if false then _ else _)
      rw [if_neg (by simp)]
      right
      exact ⟨o', d', r ++ [Step.pvcInit (pvcConfig wsp a) "PVC initialisation"], rfl⟩
  · rw [if_neg hf]
    exact h

theorem spatialModule_headFab (sp ones : Bool) (st : PlanState)
    (h : HeadFab st.steps) : HeadFab (spatialModule sp ones st).steps := by
  unfold spatialModule
  by_cases hf : sp = true
  · rw [if_pos hf]
    exact headFab_if_append_fabber _ _ _ _ h
  · rw [if_neg hf]
    exact h

theorem planModules_headFab (wsp : Wsp) (a : AslImage) (id ie pc sp : Bool)
    (st : PlanState) (h : HeadFab st.steps) :
    HeadFab (planModules wsp a id ie pc sp st).steps := by
  unfold planModules
  exact spatialModule_headFab _ _ _ (pvcModule_headFab _ _ _ _
    (t1Module_headFab _ _ (extModule_headFab _ _ _ _
      (tauModule_headFab _ _ (artModule_headFab _ _
        (tissueModule_headFab _ _ h))))))

/-! ### Step membership classification -/

theorem mem_if_append (c : Bool) (l : List Step) (x s : Step)
    (h : s ∈ (if c then l else l ++ [x])) : s ∈ l ∨ s = x := by
  by_cases hc : c = true
  · rw [if_pos hc] at h
    exact Or.inl h
  · rw [if_neg hc] at h
    rcases List.mem_append.mp h with h' | h'
    · exact Or.inl h'
    · simp only [List.mem_singleton] at h'
      exact Or.inr h'

theorem mem_steps_tissueModule (wsp : Wsp) (st : PlanState) (s : Step)
    (h : s ∈ (tissueModule wsp st).steps) :
    s ∈ st.steps ∨ ∃ o d, s = Step.fabber o d := by
  unfold tissueModule at h
  by_cases hf : truthy wsp.infertiss = true
  · rw [if_pos hf] at h
    rcases mem_if_append _ _ _ _ h with h' | h'
    · exact Or.inl h'
    · exact Or.inr ⟨_, _, h'⟩
  · rw [if_neg hf] at h
    exact Or.inl h

theorem mem_steps_artModule (wsp : Wsp) (st : PlanState) (s : Step)
    (h : s ∈ (artModule wsp st).steps) :
    s ∈ st.steps ∨ ∃ o d, s = Step.fabber o d := by
  unfold artModule at h
  by_cases hf : truthy wsp.inferart = true
  · rw [if_pos hf] at h
    rcases mem_if_append _ _ _ _ h with h' | h'
    · exact Or.inl h'
    · exact Or.inr ⟨_, _, h'⟩
  · rw [if_neg hf] at h
    exact Or.inl h

theorem mem_steps_tauModule (wsp : Wsp) (st : PlanState) (s : Step)
    (h : s ∈ (tauModule wsp st).steps) :
    s ∈ st.steps ∨ ∃ o d, s = Step.fabber o d := by
  unfold tauModule at h
  by_cases hf : truthy wsp.infertau = true
  · rw [if_pos hf] at h
    rcases mem_if_append _ _ _ _ h with h' | h'
    · exact Or.inl h'
    · exact Or.inr ⟨_, _, h'⟩
  · rw [if_neg hf] at h
    exact Or.inl h

theorem mem_steps_extModule (id ie : Bool) (wsp : Wsp) (st : PlanState) (s : Step)
    (h : s ∈ (extModule id ie wsp st).steps) :
    s ∈ st.steps ∨ ∃ o d, s = Step.fabber o d := by
  unfold extModule at h
  by_cases hf : (id || ie || wsp.inferpc) = true
  · rw [if_pos hf] at h
    rcases mem_if_append _ _ _ _ h with h' | h'
    · exact Or.inl h'
    · exact Or.inr ⟨_, _, h'⟩
  · rw [if_neg hf] at h
    exact Or.inl h

theorem mem_steps_t1Module (wsp : Wsp) (st : PlanState) (s : Step)
    (h : s ∈ (t1Module wsp st).steps) :
    s ∈ st.steps ∨ ∃ o d, s = Step.fabber o d := by
  unfold t1Module at h
  by_cases hf : wsp.infert1 = true
  · rw [if_pos hf] at h
    rcases mem_if_append _ _ _ _ h with h' | h'
    · exact Or.inl h'
    · exact Or.inr ⟨_, _, h'⟩
  · rw [if_neg hf] at h
    exact Or.inl h

theorem mem_steps_pvcModule (pc : Bool) (wsp : Wsp) (a : AslImage)
    (st : PlanState) (s : Step) (h : s ∈ (pvcModule pc wsp a st).steps) :
    s ∈ st.steps ∨ s = Step.pvcInit (pvcConfig wsp a) "PVC initialisation" := by
  unfold pvcModule at h
  by_cases hf : pc = true
  · rw [if_pos hf] at h
    have h' : s ∈ (if st.steps.isEmpty then st.steps
      else st.steps ++ [Step.pvcInit (pvcConfig wsp a) "PVC initialisation"]) := h
    by_cases he : st.steps.isEmpty = true
    · rw [if_pos he] at h'
      exact Or.inl h'
    · rw [if_neg he] at h'
      rcases List.mem_append.mp h' with h'' | h''
      · exact Or.inl h''
      · simp only [List.mem_singleton] at h''
        exact Or.inr h''
  · rw [if_neg hf] at h
    exact Or.inl h

theorem mem_steps_spatialModule (sp ones : Bool) (st : PlanState) (s : Step)
    (h : s ∈ (spatialModule sp ones st).steps) :
    s ∈ st.steps ∨ ∃ o d, s = Step.fabber o d := by
  unfold spatialModule at h
  by_cases hf : sp = true
  · rw [if_pos hf] at h
    rcases mem_if_append _ _ _ _ h with h' | h'
    · exact Or.inl h'
    · exact Or.inr ⟨_, _, h'⟩
  · rw [if_neg hf] at h
    exact Or.inl h

theorem mem_steps_planModules (wsp : Wsp) (a : AslImage) (id ie pc sp : Bool)
    (st : PlanState) (s : Step)
    (h : s ∈ (planModules wsp a id ie pc sp st).steps) :
    s ∈ st.steps ∨ (∃ o d, s = Step.fabber o d) ∨
      s = Step.pvcInit (pvcConfig wsp a) "PVC initialisation" := by
  unfold planModules at h
  rcases mem_steps_spatialModule _ _ _ _ h with h | h
  rcases mem_steps_pvcModule _ _ _ _ _ h with h | h
  rcases mem_steps_t1Module _ _ _ h with h | h
  rcases mem_steps_extModule _ _ _ _ _ h with h | h
  rcases mem_steps_tauModule _ _ _ h with h | h
  rcases mem_steps_artModule _ _ _ h with h | h
  rcases mem_steps_tissueModule _ _ _ h with h | h
  · exact Or.inl h
  · exact Or.inr (Or.inl h)
  · exact Or.inr (Or.inl h)
  · exact Or.inr (Or.inl h)
  · exact Or.inr (Or.inl h)
  · exact Or.inr (Or.inl h)
  · exact Or.inr (Or.inr h)
  · exact Or.inr (Or.inl h)

theorem planModules_fabInv (wsp : Wsp) (a : AslImage) (id ie pc sp : Bool)
    (st : PlanState) (k : String) (v : Option Val)
    (hd1 : ("infertiss" : String) ≠ k ∨ truthy wsp.infertiss = false)
    (hd2 : ("inferart" : String) ≠ k ∨ truthy wsp.inferart = false)
    (hd3 : ("infertau" : String) ≠ k ∨ truthy wsp.infertau = false)
    (hd4 : ("inferdisp" : String) ≠ k ∨ id = false)
    (hd5 : ("inferexch" : String) ≠ k ∨ ie = false)
    (hd6 : ("inferpc" : String) ≠ k ∨ wsp.inferpc = false)
    (hd7 : ("infert1" : String) ≠ k ∨ wsp.infert1 = false)
    (hd8 : ("pvcorr" : String) ≠ k ∨ pc = false)
    (hmt : ("max-trials" : String) ≠ k)
    (hsvb : ¬ k ∈ (["method", "param-spatial-priors", "convergence",
      "max-iterations"] : List String))
    (hp : k.data.take 10 ≠ "PSP_byname".data)
    (hkeys : SvbKeysOk st.svb) (hI : FabInv k v st) :
    FabInv k v (planModules wsp a id ie pc sp st) := by
  unfold planModules
  have k1 := tissueModule_fabInv wsp st k v hd1 hI
  have s1 := tissueModule_svbKeys wsp st hkeys
  have k2 := artModule_fabInv wsp _ k v hd2 k1
  have s2 := artModule_svbKeys wsp _ s1
  have k3 := tauModule_fabInv wsp _ k v hd3 k2
  have s3 : SvbKeysOk (tauModule wsp (artModule wsp (tissueModule wsp st))).svb := by
    rw [tauModule_svb]
    exact s2
  have k4 := extModule_fabInv id ie wsp _ k v hd4 hd5 hd6 k3
  have s4 : SvbKeysOk (extModule id ie wsp
      (tauModule wsp (artModule wsp (tissueModule wsp st)))).svb := by
    rw [extModule_svb]
    exact s3
  have k5 := t1Module_fabInv wsp _ k v hd7 k4
  have s5 : SvbKeysOk (t1Module wsp (extModule id ie wsp
      (tauModule wsp (artModule wsp (tissueModule wsp st))))).svb := by
    rw [t1Module_svb]
    exact s4
  have k6 := pvcModule_fabInv pc wsp a _ k v hd8 hp k5
  have s6 : SvbKeysOk (pvcModule pc wsp a (t1Module wsp (extModule id ie wsp
      (tauModule wsp (artModule wsp (tissueModule wsp st)))))).svb := by
    rw [pvcModule_svb]
    exact s5
  exact spatialModule_fabInv sp wsp.onestep _ k v hmt hsvb hp s6 k6

/-! ### Initial planner state facts -/

theorem planInit_options (wsp : Wsp) (a : AslImage) (kw : Config) :
    (planInit wsp a kw).options = (preOptions wsp (assembleOptions wsp a kw)).1 := rfl

theorem planInit_svb (wsp : Wsp) (a : AslImage) (kw : Config) :
    (planInit wsp a kw).svb =
      (if (wsp.pgm.isSome || wsp.pwm.isSome) then
        dset svbBase "max-iterations" (Val.n 200) else svbBase) := rfl

theorem planInit_steps (wsp : Wsp) (a : AslImage) (kw : Config) :
    (planInit wsp a kw).steps = [] := rfl

theorem svb0_keysOk (c : Bool) :
    SvbKeysOk (if c then dset svbBase "max-iterations" (Val.n 200) else svbBase) := by
  unfold SvbKeysOk
  cases c
  · simp only [Bool.false_eq_true, if_false]
    decide
  · simp only [if_true]
    decide

theorem svb0_nodup (c : Bool) :
    (((if c then dset svbBase "max-iterations" (Val.n 200) else svbBase)).map
      Prod.fst).Nodup := by
  cases c
  · simp only [Bool.false_eq_true, if_false]
    decide
  · simp only [if_true]
    decide

theorem svb0_method (c : Bool) :
    dget (if c then dset svbBase "max-iterations" (Val.n 200) else svbBase)
      "method" = some (Val.s "spatialvb") := by
  cases c
  · rfl
  · rfl

theorem svb0_convergence (c : Bool) :
    dget (if c then dset svbBase "max-iterations" (Val.n 200) else svbBase)
      "convergence" = some (Val.s "maxiters") := by
  cases c
  · rfl
  · rfl

theorem svb0_maxiter_pvc :
    dget (dset svbBase "max-iterations" (Val.n 200)) "max-iterations" =
      some (Val.n 200) := rfl

theorem isEmpty_append_singleton (l : List Step) (x : Step) :
    (l ++ [x]).isEmpty = false := by
  cases l <;> rfl

/-! ### Planner outcome inversion -/

theorem basil_steps_none (wsp : Wsp) (kw : Config) :
    basil_steps wsp Option.none kw =
      Except.error (BErr.valueError "Input ASL data is None") := rfl

theorem basil_steps_ok_inv (wsp : Wsp) (a0 : AslImage) (kw : Config)
    (steps : List Step) (h : basil_steps wsp (some a0) kw = Except.ok steps) :
    (((wsp.pgm.isSome || wsp.pwm.isSome) && (wsp.pgm.isNone || wsp.pwm.isNone))
        = false) ∧
    (((wsp.pgm.isSome || wsp.pwm.isSome) && !(truthy wsp.infertiss)) = false) ∧
    ((wsp.onestep = true ∧ ∃ d, (planFinal wsp a0.diff kw).stepDesc = some d ∧
        steps = (planFinal wsp a0.diff kw).steps ++
          [Step.fabber (planFinal wsp a0.diff kw).options d]) ∨
      (wsp.onestep = false ∧ steps = (planFinal wsp a0.diff kw).steps ∧
        ¬ (planFinal wsp a0.diff kw).steps = [])) := by
  simp only [basil_steps] at h
  by_cases c1 : ((wsp.pgm.isSome || wsp.pwm.isSome) &&
      (wsp.pgm.isNone || wsp.pwm.isNone)) = true
  · rw [if_pos c1] at h
    exact Except.noConfusion h
  · rw [if_neg c1] at h
    by_cases c2 : ((wsp.pgm.isSome || wsp.pwm.isSome) &&
        !(truthy wsp.infertiss)) = true
    · rw [if_pos c2] at h
      exact Except.noConfusion h
    · rw [if_neg c2] at h
      rw [Bool.not_eq_true] at c1 c2
      refine ⟨c1, c2, ?_⟩
      by_cases ho : wsp.onestep = true
      · rw [if_pos ho] at h
        cases hd : (planFinal wsp a0.diff kw).stepDesc with
        | none =>
            rw [hd] at h
            exact Except.noConfusion h
        | some d =>
            rw [hd] at h
            simp only [isEmpty_append_singleton, Bool.false_eq_true, if_false,
              Except.ok.injEq] at h
            exact Or.inl ⟨ho, d, rfl, h.symm⟩
      · rw [if_neg ho] at h
        by_cases he : (planFinal wsp a0.diff kw).steps.isEmpty = true
        · rw [if_pos he] at h
          exact Except.noConfusion h
        · rw [if_neg he] at h
          injection h with h'
          refine Or.inr ⟨?_, h'.symm, ?_⟩
          · simpa using ho
          · intro hnil
            rw [hnil] at he
            exact he rfl

/-! ### Step runner lemmas -/

theorem runChain_cons_inv (E : Config → StepResult) (s : Step) (rest : List Step)
    (prev : Option StepResult) (rs : List (Config × StepResult))
    (h : runChain E (s :: rest) prev = Except.ok rs) :
    ∃ cr tail, runStep E s prev = Except.ok cr ∧
      runChain E rest (some cr.2) = Except.ok tail ∧ rs = cr :: tail := by
  simp only [runChain] at h
  split at h
  · exact Except.noConfusion h
  · rename_i cr heq1
    split at h
    · exact Except.noConfusion h
    · rename_i tail heq2
      injection h with h'
      exact ⟨cr, tail, heq1, heq2, h'.symm⟩

theorem runChain_length (E : Config → StepResult) :
    ∀ (steps : List Step) (prev : Option StepResult)
      (rs : List (Config × StepResult)),
      runChain E steps prev = Except.ok rs → rs.length = steps.length
  | [], _, rs, h => by
      injection h with h'
      rw [← h']
      rfl
  | s :: rest, prev, rs, h => by
      obtain ⟨cr, tail, _, h2, rfl⟩ := runChain_cons_inv E s rest prev rs h
      simp [runChain_length E rest _ _ h2]

theorem runStep_fabber_none (E : Config → StepResult) (opts : Config) (d : String) :
    runStep E (Step.fabber opts d) Option.none = Except.ok (opts, E opts) := rfl

theorem runStep_fabber_some_inv (E : Config → StepResult) (opts : Config)
    (d : String) (prevRes : StepResult) (cr : Config × StepResult)
    (h : runStep E (Step.fabber opts d) (some prevRes) = Except.ok cr) :
    ∃ v, dget prevRes "finalMVN" = some v ∧
      cr = (dset opts "continue-from-mvn" v,
        E (dset opts "continue-from-mvn" v)) := by
  simp only [runStep] at h
  split at h
  · rename_i v hv
    injection h with h'
    exact ⟨v, hv, h'.symm⟩
  · exact Except.noConfusion h

theorem runStep_pvc_inv (E : Config → StepResult) (opts : Config) (d : String)
    (prev : Option StepResult) (cr : Config × StepResult)
    (h : runStep E (Step.pvcInit opts d) prev = Except.ok cr) : cr.1 = opts := by
  cases prev with
  | none => exact Except.noConfusion h
  | some prevRes =>
      simp only [runStep] at h
      split at h
      · exact Except.noConfusion h
      · injection h with h'
        rw [← h']

theorem pvcRun_ok_shape (opts : Config) (prev : StepResult) (res : StepResult)
    (h : pvcRun opts prev = Except.ok res) :
    ∃ m, res = [("finalMVN", Val.mvn m)] := by
  simp only [pvcRun] at h
  split at h
  · exact Except.noConfusion h
  · split at h
    · exact Except.noConfusion h
    · split at h
      · exact Except.noConfusion h
      · split at h
        · exact Except.noConfusion h
        · split at h
          · exact Except.noConfusion h
          · split at h
            · rename_i mask pgm ftiss pwm mvn
              injection h with h'
              exact ⟨_, h'.symm⟩
            · exact Except.noConfusion h

theorem runChain_results_finalMVN (E : Config → StepResult)
    (hE : ∀ cfg, ∃ m, dget (E cfg) "finalMVN" = some (Val.mvn m)) :
    ∀ (steps : List Step) (prev : Option StepResult)
      (rs : List (Config × StepResult)),
      runChain E steps prev = Except.ok rs →
      ∀ cr ∈ rs, ∃ m, dget cr.2 "finalMVN" = some (Val.mvn m)
  | [], _, rs, h => by
      injection h with h'
      rw [← h']
      intro cr hcr
      exact absurd hcr (List.not_mem_nil cr)
  | s :: rest, prev, rs, h => by
      obtain ⟨cr0, tail, h1, h2, rfl⟩ := runChain_cons_inv E s rest prev rs h
      intro cr hcr
      rcases List.mem_cons.mp hcr with rfl | hcr'
      · cases s with
        | fabber opts d =>
            cases prev with
            | none =>
                rw [runStep_fabber_none] at h1
                injection h1 with h1'
                rw [← h1']
                exact hE opts
            | some prevRes =>
                obtain ⟨v, _, rfl⟩ := runStep_fabber_some_inv E opts d prevRes _ h1
                exact hE _
        | pvcInit opts d =>
            cases prev with
            | none => exact Except.noConfusion h1
            | some prevRes =>
                simp only [runStep] at h1
                split at h1
                · exact Except.noConfusion h1
                · rename_i res hres
                  injection h1 with h1'
                  obtain ⟨m, rfl⟩ := pvcRun_ok_shape opts prevRes res hres
                  rw [← h1']
                  exact ⟨m, rfl⟩
      · exact runChain_results_finalMVN E hE rest (some cr0.2) tail h2 cr hcr'

theorem runChain_head_submitted (E : Config → StepResult) (steps : List Step)
    (rs : List (Config × StepResult))
    (h : runChain E steps Option.none = Except.ok rs) (opts : Config) (d : String)
    (hh : steps.head? = some (Step.fabber opts d)) :
    ∃ p tail, rs = p :: tail ∧ p.1 = opts := by
  cases steps with
  | nil => exact Option.noConfusion hh
  | cons s rest =>
      injection hh with hh'
      subst hh'
      obtain ⟨cr, tail, h1, _, rfl⟩ := runChain_cons_inv E _ rest _ rs h
      rw [runStep_fabber_none] at h1
      injection h1 with h1'
      exact ⟨cr, tail, rfl, by rw [← h1']⟩

theorem runChain_consecutive (E : Config → StepResult) :
    ∀ (steps : List Step) (prev : Option StepResult)
      (rs : List (Config × StepResult)),
      runChain E steps prev = Except.ok rs →
      ∀ (k : Nat) (opts : Config) (d : String) (p q : Config × StepResult),
        steps[k + 1]? = some (Step.fabber opts d) → rs[k]? = some q →
        rs[k + 1]? = some p →
        ∃ v, dget q.2 "finalMVN" = some v ∧
          p.1 = dset opts "continue-from-mvn" v
  | [], _, rs, h => by
      injection h with h'
      intro k opts d p q _ hq _
      rw [← h'] at hq
      exact Option.noConfusion hq
  | s :: rest, prev, rs, h => by
      obtain ⟨cr, tail, h1, h2, rfl⟩ := runChain_cons_inv E s rest prev rs h
      intro k opts d p q hstep hq hp
      cases k with
      | zero =>
          rw [List.getElem?_cons_succ] at hstep
          rw [List.getElem?_cons_zero] at hq
          rw [List.getElem?_cons_succ] at hp
          injection hq with hq'
          subst hq'
          cases rest with
          | nil => exact Option.noConfusion hstep
          | cons s' rest' =>
              rw [List.getElem?_cons_zero] at hstep
              injection hstep with hstep'
              subst hstep'
              obtain ⟨cr2, tail2, h21, _, rfl⟩ :=
                runChain_cons_inv E _ rest' _ tail h2
              rw [List.getElem?_cons_zero] at hp
              injection hp with hp'
              subst hp'
              obtain ⟨v, hv, rfl⟩ := runStep_fabber_some_inv E opts d _ cr2 h21
              exact ⟨v, hv, rfl⟩
      | succ k' =>
          rw [List.getElem?_cons_succ] at hstep hq hp
          exact runChain_consecutive E rest (some cr.2) tail h2 k' opts d p q
            hstep hq hp

theorem runChain_pvc_options (E : Config → StepResult) :
    ∀ (steps : List Step) (prev : Option StepResult)
      (rs : List (Config × StepResult)),
      runChain E steps prev = Except.ok rs →
      ∀ (k : Nat) (opts : Config) (d : String) (p : Config × StepResult),
        steps[k]? = some (Step.pvcInit opts d) → rs[k]? = some p → p.1 = opts
  | [], _, rs, h => by
      injection h with h'
      intro k opts d p _ hp
      rw [← h'] at hp
      exact Option.noConfusion hp
  | s :: rest, prev, rs, h => by
      obtain ⟨cr, tail, h1, h2, rfl⟩ := runChain_cons_inv E s rest prev rs h
      intro k opts d p hstep hp
      cases k with
      | zero =>
          rw [List.getElem?_cons_zero] at hstep hp
          injection hstep with hstep'
          injection hp with hp'
          subst hstep'
          subst hp'
          exact runStep_pvc_inv E opts d prev cr h1
      | succ k' =>
          rw [List.getElem?_cons_succ] at hstep hp
          exact runChain_pvc_options E rest (some cr.2) tail h2 k' opts d p
            hstep hp

/-! ### Final planner state facts -/

theorem planFinal_fabInv (wsp : Wsp) (a : AslImage) (kw : Config) (k : String)
    (v : Option Val)
    (hd1 : ("infertiss" : String) ≠ k ∨ truthy wsp.infertiss = false)
    (hd2 : ("inferart" : String) ≠ k ∨ truthy wsp.inferart = false)
    (hd3 : ("infertau" : String) ≠ k ∨ truthy wsp.infertau = false)
    (hd4 : ("inferdisp" : String) ≠ k ∨
      (dget (assembleOptions wsp a kw) "disp" != some (Val.s "none")) = false)
    (hd5 : ("inferexch" : String) ≠ k ∨
      (dget (assembleOptions wsp a kw) "exch" != some (Val.s "mix")) = false)
    (hd6 : ("inferpc" : String) ≠ k ∨ wsp.inferpc = false)
    (hd7 : ("infert1" : String) ≠ k ∨ wsp.infert1 = false)
    (hd8 : ("pvcorr" : String) ≠ k ∨ (wsp.pgm.isSome || wsp.pwm.isSome) = false)
    (hmt : ("max-trials" : String) ≠ k)
    (hsvb : ¬ k ∈ (["method", "param-spatial-priors", "convergence",
      "max-iterations"] : List String))
    (hp : k.data.take 10 ≠ "PSP_byname".data)
    (h0 : dget (preOptions wsp (assembleOptions wsp a kw)).1 k = v) :
    FabInv k v (planFinal wsp a kw) := by
  unfold planFinal
  refine planModules_fabInv _ _ _ _ _ _ _ _ _ hd1 hd2 hd3 hd4 hd5 hd6 hd7 hd8
    hmt hsvb hp ?_ ?_
  · rw [planInit_svb]
    exact svb0_keysOk _
  · refine ⟨?_, ?_⟩
    · rw [planInit_options]
      exact h0
    · intro opts d hm
      rw [planInit_steps] at hm
      exact absurd hm (List.not_mem_nil _)

theorem planFinal_headFab (wsp : Wsp) (a : AslImage) (kw : Config) :
    HeadFab (planFinal wsp a kw).steps := by
  unfold planFinal
  exact planModules_headFab _ _ _ _ _ _ _ (Or.inl (planInit_steps wsp a kw))

theorem planFinal_steps_onestep (wsp : Wsp) (a : AslImage) (kw : Config)
    (ho : wsp.onestep = true) : (planFinal wsp a kw).steps = [] := by
  unfold planFinal
  exact planModules_steps_onestep _ _ _ _ _ _ _ ho (planInit_steps wsp a kw)

theorem mem_steps_planFinal (wsp : Wsp) (a : AslImage) (kw : Config) (s : Step)
    (h : s ∈ (planFinal wsp a kw).steps) :
    (∃ o d, s = Step.fabber o d) ∨
      s = Step.pvcInit (pvcConfig wsp a) "PVC initialisation" := by
  unfold planFinal at h
  rcases mem_steps_planModules _ _ _ _ _ _ _ _ h with h' | h' | h'
  · rw [planInit_steps] at h'
    exact absurd h' (List.not_mem_nil _)
  · exact Or.inl h'
  · exact Or.inr h'

/-! ### `basilDefaults` facts -/

theorem defT1_inferart (w : Wsp) (v : ℚ) : (defT1 w v).inferart = w.inferart := by
  unfold defT1
  split <;> rfl

theorem defT1b_inferart (w : Wsp) : (defT1b w).inferart = w.inferart := by
  unfold defT1b
  split <;> rfl

theorem defBat_inferart (w : Wsp) (v : ℚ) : (defBat w v).inferart = w.inferart := by
  unfold defBat
  split <;> rfl

theorem defTau_inferart (w : Wsp) : (defTau w).inferart = w.inferart := by
  unfold defTau
  split <;> rfl

theorem defInfertiss_inferart (w : Wsp) : (defInfertiss w).inferart = w.inferart := by
  unfold defInfertiss
  split <;> rfl

theorem defInfertau_inferart (w : Wsp) : (defInfertau w).inferart = w.inferart := by
  unfold defInfertau
  split <;> rfl

theorem defT1_infertau (w : Wsp) (v : ℚ) : (defT1 w v).infertau = w.infertau := by
  unfold defT1
  split <;> rfl

theorem defT1b_infertau (w : Wsp) : (defT1b w).infertau = w.infertau := by
  unfold defT1b
  split <;> rfl

theorem defBat_infertau (w : Wsp) (v : ℚ) : (defBat w v).infertau = w.infertau := by
  unfold defBat
  split <;> rfl

theorem defTau_infertau (w : Wsp) : (defTau w).infertau = w.infertau := by
  unfold defTau
  split <;> rfl

theorem defInfertiss_infertau (w : Wsp) : (defInfertiss w).infertau = w.infertau := by
  unfold defInfertiss
  split <;> rfl

theorem basilDefaults_inferart (wsp : Wsp) :
    (basilDefaults wsp).inferart = (wspSingleTi wsp).inferart := by
  unfold basilDefaults
  rw [defInfertau_inferart, defInfertiss_inferart, defTau_inferart,
    defBat_inferart, defT1b_inferart, defT1_inferart]

theorem basilDefaults_single_ti (wsp : Wsp) (h : wsp.asldata.ntis = 1) :
    (basilDefaults wsp).inferart = some false ∧
      (basilDefaults wsp).infertau = some false := by
  have hart : (wspSingleTi wsp).inferart = some false := by
    unfold wspSingleTi
    rw [if_pos h]
  have htau : (wspSingleTi wsp).infertau = some false := by
    unfold wspSingleTi
    rw [if_pos h]
  constructor
  · rw [basilDefaults_inferart, hart]
  · unfold basilDefaults
    rw [defInfertau, if_neg (by
      rw [defInfertiss_infertau, defTau_infertau, defBat_infertau,
        defT1b_infertau, defT1_infertau, htau]
      exact fun he => Option.noConfusion he)]
    rw [defInfertiss_infertau, defTau_infertau, defBat_infertau,
      defT1b_infertau, defT1_infertau, htau]

/-! ### Claim C6 -/

/-- C6: for a dataset with exactly one inversion time, arterial-component
inference and bolus-duration inference are disabled in every planned
configuration (no `inferart`/`incart`/`infertau`/`inctau` keys), even when
the caller explicitly requested them, provided the free-form overrides do
not themselves set those engine keys. -/
theorem C6_single_ti (wsp : Wsp) (a? : Option AslImage) (kw : Config)
    (steps : List Step) (hnt : wsp.asldata.ntis = 1)
    (hk1 : dget kw "inferart" = Option.none)
    (hk2 : dget kw "incart" = Option.none)
    (hk3 : dget kw "infertau" = Option.none)
    (hk4 : dget kw "inctau" = Option.none)
    (hok : basil_steps (basilDefaults wsp) a? kw = Except.ok steps) :
    ∀ s ∈ steps, dget s.options "inferart" = Option.none ∧
      dget s.options "incart" = Option.none ∧
      dget s.options "infertau" = Option.none ∧
      dget s.options "inctau" = Option.none := by
  cases a? with
  | none => exact Except.noConfusion hok
  | some a0 =>
      obtain ⟨hart, htau⟩ := basilDefaults_single_ti wsp hnt
      have htruthyA : truthy (basilDefaults wsp).inferart = false := by
        rw [hart]
        rfl
      have htruthyT : truthy (basilDefaults wsp).infertau = false := by
        rw [htau]
        rfl
      have ha1 : dget (assembleOptions (basilDefaults wsp) a0.diff kw) "inferart"
          = Option.none := by
        rw [dget_assembleOptions_base _ _ _ _ hk1 (by decide) (by decide) (by decide)]
        rfl
      have ha2 : dget (assembleOptions (basilDefaults wsp) a0.diff kw) "incart"
          = Option.none := by
        rw [dget_assembleOptions_base _ _ _ _ hk2 (by decide) (by decide) (by decide)]
        rfl
      have ha3 : dget (assembleOptions (basilDefaults wsp) a0.diff kw) "infertau"
          = Option.none := by
        rw [dget_assembleOptions_base _ _ _ _ hk3 (by decide) (by decide) (by decide)]
        rfl
      have ha4 : dget (assembleOptions (basilDefaults wsp) a0.diff kw) "inctau"
          = Option.none := by
        rw [dget_assembleOptions_base _ _ _ _ hk4 (by decide) (by decide) (by decide)]
        rfl
      have hp1 : dget (preOptions (basilDefaults wsp)
          (assembleOptions (basilDefaults wsp) a0.diff kw)).1 "inferart"
          = Option.none := by
        rw [dget_preOptions_ne _ _ _ (by decide) (by decide)]
        exact ha1
      have hp2 : dget (preOptions (basilDefaults wsp)
          (assembleOptions (basilDefaults wsp) a0.diff kw)).1 "incart"
          = Option.none := by
        rw [dget_preOptions_incart_false _ _ htruthyA]
        exact ha2
      have hp3 : dget (preOptions (basilDefaults wsp)
          (assembleOptions (basilDefaults wsp) a0.diff kw)).1 "infertau"
          = Option.none := by
        rw [dget_preOptions_ne _ _ _ (by decide) (by decide)]
        exact ha3
      have hp4 : dget (preOptions (basilDefaults wsp)
          (assembleOptions (basilDefaults wsp) a0.diff kw)).1 "inctau"
          = Option.none := by
        rw [dget_preOptions_inctau_false _ _ htruthyT]
        exact ha4
      have f1 := planFinal_fabInv (basilDefaults wsp) a0.diff kw "inferart"
        Option.none (Or.inl (by decide)) (Or.inr htruthyA) (Or.inl (by decide))
        (Or.inl (by decide)) (Or.inl (by decide)) (Or.inl (by decide))
        (Or.inl (by decide)) (Or.inl (by decide)) (by decide) (by decide)
        (by decide) hp1
      have f2 := planFinal_fabInv (basilDefaults wsp) a0.diff kw "incart"
        Option.none (Or.inl (by decide)) (Or.inl (by decide)) (Or.inl (by decide))
        (Or.inl (by decide)) (Or.inl (by decide)) (Or.inl (by decide))
        (Or.inl (by decide)) (Or.inl (by decide)) (by decide) (by decide)
        (by decide) hp2
      have f3 := planFinal_fabInv (basilDefaults wsp) a0.diff kw "infertau"
        Option.none (Or.inl (by decide)) (Or.inl (by decide)) (Or.inr htruthyT)
        (Or.inl (by decide)) (Or.inl (by decide)) (Or.inl (by decide))
        (Or.inl (by decide)) (Or.inl (by decide)) (by decide) (by decide)
        (by decide) hp3
      have f4 := planFinal_fabInv (basilDefaults wsp) a0.diff kw "inctau"
        Option.none (Or.inl (by decide)) (Or.inl (by decide)) (Or.inl (by decide))
        (Or.inl (by decide)) (Or.inl (by decide)) (Or.inl (by decide))
        (Or.inl (by decide)) (Or.inl (by decide)) (by decide) (by decide)
        (by decide) hp4
      obtain ⟨-, -, hshape⟩ := basil_steps_ok_inv (basilDefaults wsp) a0 kw steps hok
      have hcover : ∀ s' ∈ (planFinal (basilDefaults wsp) a0.diff kw).steps,
          dget s'.options "inferart" = Option.none ∧
          dget s'.options "incart" = Option.none ∧
          dget s'.options "infertau" = Option.none ∧
          dget s'.options "inctau" = Option.none := by
        intro s' hs'
        rcases mem_steps_planFinal _ _ _ _ hs' with ⟨o, d, rfl⟩ | rfl
        · exact ⟨f1.2 o d hs', f2.2 o d hs', f3.2 o d hs', f4.2 o d hs'⟩
        · exact ⟨rfl, rfl, rfl, rfl⟩
      intro s hs
      rcases hshape with ⟨ho, d, hdesc, rfl⟩ | ⟨ho, rfl, hne⟩
      · rcases List.mem_append.mp hs with hs' | hs'
        · exact hcover s hs'
        · simp only [List.mem_singleton] at hs'
          subst hs'
          exact ⟨f1.1, f2.1, f3.1, f4.1⟩
      · exact hcover s hs

/-- Witness for C6 at a concrete single-TI workspace that explicitly
requests arterial and bolus-duration inference. -/
theorem C6_witness :
    c6Wsp.asldata.ntis = 1 ∧
    (c6Run.all (fun s => (dget s.options "inferart").isNone &&
      (dget s.options "incart").isNone && (dget s.options "infertau").isNone &&
      (dget s.options "inctau").isNone)) = true := by
  refine ⟨by decide, ?_⟩
  have hok : basil_steps (basilDefaults c6Wsp) (some tAsl) [] = Except.ok c6Run := rfl
  have h := C6_single_ti c6Wsp (some tAsl) [] c6Run (by decide) rfl rfl rfl rfl hok
  rw [List.all_eq_true]
  intro s hs
  obtain ⟨h1, h2, h3, h4⟩ := h s hs
  rw [h1, h2, h3, h4]
  rfl

/-! ### Spatial-step option facts -/

theorem spatialModule_options_from_svb (st : PlanState) (ones : Bool)
    (k : String) (v : Val) (hne : ("max-trials" : String) ≠ k)
    (hnd : (st.svb.map Prod.fst).Nodup) (hv : dget st.svb k = some v) :
    dget (spatialModule true ones st).options k = some v := by
  unfold spatialModule
  rw [if_pos rfl]
  show dget (ddel (dupdate st.options st.svb) "max-trials") k = some v
  rw [dget_ddel_ne _ hne, dget_dupdate_mem _ _ _ _ hnd hv]

theorem spatialModule_options_not_in_svb (st : PlanState) (ones : Bool)
    (k : String) (hne : ("max-trials" : String) ≠ k) (hA : SvbKeysOk st.svb)
    (hsvb : ¬ k ∈ (["method", "param-spatial-priors", "convergence",
      "max-iterations"] : List String))
    (hp : k.data.take 10 ≠ "PSP_byname".data) :
    dget (spatialModule true ones st).options k = dget st.options k := by
  unfold spatialModule
  rw [if_pos rfl]
  show dget (ddel (dupdate st.options st.svb) "max-trials") k = dget st.options k
  rw [dget_ddel_ne _ hne,
    dget_dupdate_of_not_key _ _ _ (svb_not_key_of_ok _ _ hA hsvb hp)]

theorem spatialModule_options_maxtrials (st : PlanState) (ones : Bool) :
    dget (spatialModule true ones st).options "max-trials" = Option.none := by
  unfold spatialModule
  rw [if_pos rfl]
  exact dget_ddel_self _ _

theorem prePipeline_svb_dget (wsp : Wsp) (a : AslImage) (id ie pc : Bool)
    (st : PlanState) (k : String) (hp : k.data.take 10 ≠ "PSP_byname".data) :
    dget (pvcModule pc wsp a (t1Module wsp (extModule id ie wsp
      (tauModule wsp (artModule wsp (tissueModule wsp st)))))).svb k
      = dget st.svb k := by
  rw [pvcModule_svb, t1Module_svb, extModule_svb, tauModule_svb,
    artModule_svb_dget _ _ _ hp, tissueModule_svb_dget _ _ _ hp]

theorem prePipeline_svbKeys (wsp : Wsp) (a : AslImage) (id ie pc : Bool)
    (st : PlanState) (h : SvbKeysOk st.svb) :
    SvbKeysOk (pvcModule pc wsp a (t1Module wsp (extModule id ie wsp
      (tauModule wsp (artModule wsp (tissueModule wsp st)))))).svb := by
  rw [pvcModule_svb, t1Module_svb, extModule_svb, tauModule_svb]
  exact artModule_svbKeys _ _ (tissueModule_svbKeys _ _ h)

theorem prePipeline_svb_nodup (wsp : Wsp) (a : AslImage) (id ie pc : Bool)
    (st : PlanState) (h : (st.svb.map Prod.fst).Nodup) :
    ((pvcModule pc wsp a (t1Module wsp (extModule id ie wsp
      (tauModule wsp (artModule wsp (tissueModule wsp st)))))).svb.map
        Prod.fst).Nodup := by
  rw [pvcModule_svb, t1Module_svb, extModule_svb, tauModule_svb]
  exact artModule_svb_nodup _ _ (tissueModule_svb_nodup _ _ h)

theorem pvcModule_options_pvcorr (wsp : Wsp) (a : AslImage) (st : PlanState) :
    dget (pvcModule true wsp a st).options "pvcorr" = some (Val.b true) := by
  unfold pvcModule
  rw [if_pos rfl]
  show dget (addPrior (addPrior (addPrior _ _ _ _).1 _ _ _).1 _ _ _).1 "pvcorr"
    = some (Val.b true)
  rw [dget_addPrior_ne _ _ _ _ _ (by decide), dget_addPrior_ne _ _ _ _ _ (by decide),
    dget_addPrior_ne _ _ _ _ _ (by decide), dget_dset_self]

theorem planFinal_last (wsp : Wsp) (a : AslImage) (kw : Config)
    (hsp : (wsp.spatial || (wsp.pgm.isSome || wsp.pwm.isSome)) = true)
    (ho : wsp.onestep = false) :
    ∃ d, (planFinal wsp a kw).steps.getLast? =
      some (Step.fabber (planFinal wsp a kw).options d) := by
  unfold planFinal planModules spatialModule
  rw [hsp, if_pos rfl,
    if_neg (fun h => by rw [ho] at h; exact Bool.noConfusion h)]
  exact ⟨_, List.getLast?_concat _⟩

theorem planFinal_spatial_method (wsp : Wsp) (a : AslImage) (kw : Config)
    (hsp : (wsp.spatial || (wsp.pgm.isSome || wsp.pwm.isSome)) = true) :
    dget (planFinal wsp a kw).options "method" = some (Val.s "spatialvb") ∧
    dget (planFinal wsp a kw).options "convergence" = some (Val.s "maxiters") ∧
    dget (planFinal wsp a kw).options "max-trials" = Option.none := by
  unfold planFinal planModules
  rw [hsp]
  have hnd := prePipeline_svb_nodup wsp a
    (dget (assembleOptions wsp a kw) "disp" != some (Val.s "none"))
    (dget (assembleOptions wsp a kw) "exch" != some (Val.s "mix"))
    (wsp.pgm.isSome || wsp.pwm.isSome) (planInit wsp a kw)
    (by rw [planInit_svb]; exact svb0_nodup _)
  have hm := prePipeline_svb_dget wsp a
    (dget (assembleOptions wsp a kw) "disp" != some (Val.s "none"))
    (dget (assembleOptions wsp a kw) "exch" != some (Val.s "mix"))
    (wsp.pgm.isSome || wsp.pwm.isSome) (planInit wsp a kw)
    "method" (by decide)
  have hc := prePipeline_svb_dget wsp a
    (dget (assembleOptions wsp a kw) "disp" != some (Val.s "none"))
    (dget (assembleOptions wsp a kw) "exch" != some (Val.s "mix"))
    (wsp.pgm.isSome || wsp.pwm.isSome) (planInit wsp a kw)
    "convergence" (by decide)
  rw [planInit_svb] at hm hc
  refine ⟨?_, ?_, ?_⟩
  · exact spatialModule_options_from_svb _ _ _ _ (by decide) hnd
      (by rw [hm]; exact svb0_method _)
  · exact spatialModule_options_from_svb _ _ _ _ (by decide) hnd
      (by rw [hc]; exact svb0_convergence _)
  · exact spatialModule_options_maxtrials _ _

theorem planFinal_pvc_options (wsp : Wsp) (a : AslImage) (kw : Config)
    (hpc : (wsp.pgm.isSome || wsp.pwm.isSome) = true) :
    dget (planFinal wsp a kw).options "max-iterations" = some (Val.n 200) ∧
    dget (planFinal wsp a kw).options "pvcorr" = some (Val.b true) := by
  unfold planFinal planModules
  rw [hpc, Bool.or_true]
  have hnd := prePipeline_svb_nodup wsp a
    (dget (assembleOptions wsp a kw) "disp" != some (Val.s "none"))
    (dget (assembleOptions wsp a kw) "exch" != some (Val.s "mix"))
    true (planInit wsp a kw)
    (by rw [planInit_svb]; exact svb0_nodup _)
  have hmi := prePipeline_svb_dget wsp a
    (dget (assembleOptions wsp a kw) "disp" != some (Val.s "none"))
    (dget (assembleOptions wsp a kw) "exch" != some (Val.s "mix"))
    true (planInit wsp a kw) "max-iterations" (by decide)
  have hkeys := prePipeline_svbKeys wsp a
    (dget (assembleOptions wsp a kw) "disp" != some (Val.s "none"))
    (dget (assembleOptions wsp a kw) "exch" != some (Val.s "mix"))
    true (planInit wsp a kw)
    (by rw [planInit_svb]; exact svb0_keysOk _)
  rw [planInit_svb, hpc, if_pos rfl] at hmi
  constructor
  · exact spatialModule_options_from_svb _ _ _ _ (by decide) hnd
      (by rw [hmi]; exact svb0_maxiter_pvc)
  · rw [spatialModule_options_not_in_svb _ _ _ (by decide) hkeys (by decide)
      (by decide)]
    exact pvcModule_options_pvcorr _ _ _

/-! ### Claim C10 -/

/-- C10: the parameter-inclusion flag `incpve` is driven by the workspace's
`pvcorr` attribute (`basil_steps` line 223), not by whether the PV maps were
supplied: when the attribute is truthy every Fabber configuration includes
`incpve`; when it is not, no planned configuration contains `incpve` (given
the free-form overrides do not set it), and supplying both maps without the
attribute yields a final (spatial) step whose configuration has `pvcorr`
set true but no `incpve` key. -/
theorem C10_incpve (wsp : Wsp) (a0 : AslImage) (kw : Config) (steps : List Step)
    (hk : dget kw "incpve" = Option.none)
    (hok : basil_steps wsp (some a0) kw = Except.ok steps) :
    (wsp.pvcorr = true → ∀ opts d, Step.fabber opts d ∈ steps →
      dget opts "incpve" = some (Val.b true)) ∧
    (wsp.pvcorr = false → ∀ s ∈ steps, dget s.options "incpve" = Option.none) ∧
    (wsp.pvcorr = false → wsp.pgm.isSome = true → wsp.pwm.isSome = true →
      ∃ opts d, steps.getLast? = some (Step.fabber opts d) ∧
        dget opts "pvcorr" = some (Val.b true) ∧
        dget opts "incpve" = Option.none) := by
  obtain ⟨hc1, hc2, hshape⟩ := basil_steps_ok_inv wsp a0 kw steps hok
  refine ⟨?_, ?_, ?_⟩
  · intro hpv opts d hm
    have f := planFinal_fabInv wsp a0.diff kw "incpve" (some (Val.b true))
      (Or.inl (by decide)) (Or.inl (by decide)) (Or.inl (by decide))
      (Or.inl (by decide)) (Or.inl (by decide)) (Or.inl (by decide))
      (Or.inl (by decide)) (Or.inl (by decide)) (by decide) (by decide)
      (by decide) (dget_preOptions_incpve _ _ hpv)
    rcases hshape with ⟨ho, d0, hdesc, rfl⟩ | ⟨ho, rfl, hne⟩
    · rcases List.mem_append.mp hm with hm' | hm'
      · exact f.2 _ _ hm'
      · simp only [List.mem_singleton, Step.fabber.injEq] at hm'
        obtain ⟨rfl, rfl⟩ := hm'
        exact f.1
    · exact f.2 _ _ hm
  · intro hpv s hs
    have habs : dget (preOptions wsp (assembleOptions wsp a0.diff kw)).1 "incpve"
        = Option.none := by
      rw [dget_preOptions_incpve_false _ _ hpv,
        dget_assembleOptions_base _ _ _ _ hk (by decide) (by decide) (by decide)]
      rfl
    have f := planFinal_fabInv wsp a0.diff kw "incpve" Option.none
      (Or.inl (by decide)) (Or.inl (by decide)) (Or.inl (by decide))
      (Or.inl (by decide)) (Or.inl (by decide)) (Or.inl (by decide))
      (Or.inl (by decide)) (Or.inl (by decide)) (by decide) (by decide)
      (by decide) habs
    have hcover : ∀ s' ∈ (planFinal wsp a0.diff kw).steps,
        dget s'.options "incpve" = Option.none := by
      intro s' hs'
      rcases mem_steps_planFinal _ _ _ _ hs' with ⟨o, d, rfl⟩ | rfl
      · exact f.2 o d hs'
      · rfl
    rcases hshape with ⟨ho, d0, hdesc, rfl⟩ | ⟨ho, rfl, hne⟩
    · rcases List.mem_append.mp hs with hs' | hs'
      · exact hcover s hs'
      · simp only [List.mem_singleton] at hs'
        subst hs'
        exact f.1
    · exact hcover s hs
  · intro hpv hpgm hpwm
    have hpc : (wsp.pgm.isSome || wsp.pwm.isSome) = true := by
      rw [hpgm]
      rfl
    have hsp : (wsp.spatial || (wsp.pgm.isSome || wsp.pwm.isSome)) = true := by
      rw [hpc, Bool.or_true]
    have habs : dget (preOptions wsp (assembleOptions wsp a0.diff kw)).1 "incpve"
        = Option.none := by
      rw [dget_preOptions_incpve_false _ _ hpv,
        dget_assembleOptions_base _ _ _ _ hk (by decide) (by decide) (by decide)]
      rfl
    have f := planFinal_fabInv wsp a0.diff kw "incpve" Option.none
      (Or.inl (by decide)) (Or.inl (by decide)) (Or.inl (by decide))
      (Or.inl (by decide)) (Or.inl (by decide)) (Or.inl (by decide))
      (Or.inl (by decide)) (Or.inl (by decide)) (by decide) (by decide)
      (by decide) habs
    obtain ⟨hmi, hpvo⟩ := planFinal_pvc_options wsp a0.diff kw hpc
    rcases hshape with ⟨ho, d0, hdesc, rfl⟩ | ⟨ho, rfl, hne⟩
    · refine ⟨(planFinal wsp a0.diff kw).options, d0, ?_, hpvo, f.1⟩
      rw [planFinal_steps_onestep wsp a0.diff kw ho]
      rfl
    · obtain ⟨d, hlast⟩ := planFinal_last wsp a0.diff kw hsp ho
      exact ⟨(planFinal wsp a0.diff kw).options, d, hlast, hpvo, f.1⟩

/-- Witness for C10 at two concrete workspaces: one with the `pvcorr`
attribute set and no maps, one with both maps and the attribute unset. -/
theorem C10_witness :
    (c10aRun.all (fun s => match s with
      | Step.fabber o _ => dget o "incpve" == some (Val.b true)
      | Step.pvcInit _ _ => true)) = true ∧
    (c10bRun.all (fun s => (dget s.options "incpve").isNone)) = true ∧
    ((c10bRun.getLast?).map
      (fun s => (dget s.options "pvcorr", dget s.options "incpve")))
      = some (some (Val.b true), Option.none) := by
  have hokA : basil_steps c10aWsp (some tAsl) [] = Except.ok c10aRun := rfl
  have hokB : basil_steps c10bWsp (some tAsl) [] = Except.ok c10bRun := rfl
  have hA := C10_incpve c10aWsp tAsl [] c10aRun rfl hokA
  have hB := C10_incpve c10bWsp tAsl [] c10bRun rfl hokB
  refine ⟨?_, ?_, ?_⟩
  · rw [List.all_eq_true]
    intro s hs
    cases s with
    | fabber o d =>
        show (dget o "incpve" == some (Val.b true)) = true
        rw [hA.1 rfl o d hs]
        rfl
    | pvcInit o d => rfl
  · rw [List.all_eq_true]
    intro s hs
    rw [hB.2.1 rfl s hs]
    rfl
  · obtain ⟨opts, d, hlast, h1, h2⟩ := hB.2.2 rfl rfl rfl
    rw [hlast]
    show some (dget opts "pvcorr", dget opts "incpve")
      = some (some (Val.b true), Option.none)
    rw [h1, h2]

/-! ### Claim C5 -/

theorem planFinal_stepDesc_spatial (wsp : Wsp) (a : AslImage) (kw : Config)
    (hsp : (wsp.spatial || (wsp.pgm.isSome || wsp.pwm.isSome)) = true) :
    ∃ d, (planFinal wsp a kw).stepDesc = some d := by
  unfold planFinal planModules spatialModule
  rw [hsp, if_pos rfl]
  exact ⟨_, rfl⟩

/-- C5: supplying exactly one of the two partial-volume maps raises the
one-map `ValueError`; supplying neither leaves PV correction disabled (no
`pvcorr` option anywhere) and raises neither PV error; supplying both with
tissue inference enabled plans successfully with a final spatial step whose
configuration has `pvcorr` on, the spatial method, and the raised iteration
cap 200; supplying both with tissue inference disabled raises the
PV/artonly `ValueError`. -/
theorem C5_pv_maps (wsp : Wsp) (a0 : AslImage) (kw : Config) :
    (wsp.pgm.isSome ≠ wsp.pwm.isSome →
      basil_steps wsp (some a0) kw = Except.error (BErr.valueError onePvMapMsg)) ∧
    (wsp.pgm = Option.none → wsp.pwm = Option.none →
      (∀ e, basil_steps wsp (some a0) kw = Except.error e →
        e ≠ BErr.valueError onePvMapMsg ∧ e ≠ BErr.valueError pvArtOnlyMsg) ∧
      (dget kw "pvcorr" = Option.none →
        ∀ steps, basil_steps wsp (some a0) kw = Except.ok steps →
          ∀ s ∈ steps, dget s.options "pvcorr" = Option.none)) ∧
    (wsp.pgm.isSome = true → wsp.pwm.isSome = true →
      truthy wsp.infertiss = true →
      ∃ steps opts d, basil_steps wsp (some a0) kw = Except.ok steps ∧
        steps.getLast? = some (Step.fabber opts d) ∧
        dget opts "pvcorr" = some (Val.b true) ∧
        dget opts "method" = some (Val.s "spatialvb") ∧
        dget opts "max-iterations" = some (Val.n 200)) ∧
    (wsp.pgm.isSome = true → wsp.pwm.isSome = true →
      truthy wsp.infertiss = false →
      basil_steps wsp (some a0) kw = Except.error (BErr.valueError pvArtOnlyMsg)) := by
  refine ⟨?_, ?_, ?_, ?_⟩
  · intro hne
    have hc : ((wsp.pgm.isSome || wsp.pwm.isSome) &&
        (wsp.pgm.isNone || wsp.pwm.isNone)) = true := by
      cases hg : wsp.pgm <;> cases hw : wsp.pwm
      · rw [hg, hw] at hne
        exact absurd rfl hne
      · rfl
      · rfl
      · rw [hg, hw] at hne
        exact absurd rfl hne
    simp only [basil_steps]
    rw [if_pos hc]
  · intro hg hw
    have hc1 : ((wsp.pgm.isSome || wsp.pwm.isSome) &&
        (wsp.pgm.isNone || wsp.pwm.isNone)) = false := by
      rw [hg, hw]
      rfl
    have hc2 : ((wsp.pgm.isSome || wsp.pwm.isSome) &&
        !(truthy wsp.infertiss)) = false := by
      rw [hg, hw]
      rfl
    constructor
    · intro e he
      simp only [basil_steps] at he
      rw [if_neg (by rw [hc1]; exact Bool.noConfusion),
        if_neg (by rw [hc2]; exact Bool.noConfusion)] at he
      by_cases ho : wsp.onestep = true
      · rw [if_pos ho] at he
        cases hd : (planFinal wsp a0.diff kw).stepDesc with
        | none =>
            rw [hd] at he
            injection he with he'
            rw [← he']
            exact ⟨by decide, by decide⟩
        | some d =>
            rw [hd] at he
            simp only [isEmpty_append_singleton, Bool.false_eq_true, if_false] at he
            exact Except.noConfusion he
      · rw [if_neg ho] at he
        by_cases hem : (planFinal wsp a0.diff kw).steps.isEmpty = true
        · rw [if_pos hem] at he
          injection he with he'
          rw [← he']
          exact ⟨by decide, by decide⟩
        · rw [if_neg hem] at he
          exact Except.noConfusion he
    · intro hkw steps hok s hs
      obtain ⟨-, -, hshape⟩ := basil_steps_ok_inv wsp a0 kw steps hok
      have habs : dget (preOptions wsp (assembleOptions wsp a0.diff kw)).1 "pvcorr"
          = Option.none := by
        rw [dget_preOptions_ne _ _ _ (by decide) (by decide),
          dget_assembleOptions_base _ _ _ _ hkw (by decide) (by decide) (by decide)]
        rfl
      have hpc : (wsp.pgm.isSome || wsp.pwm.isSome) = false := by
        rw [hg, hw]
        rfl
      have f := planFinal_fabInv wsp a0.diff kw "pvcorr" Option.none
        (Or.inl (by decide)) (Or.inl (by decide)) (Or.inl (by decide))
        (Or.inl (by decide)) (Or.inl (by decide)) (Or.inl (by decide))
        (Or.inl (by decide)) (Or.inr hpc) (by decide) (by decide)
        (by decide) habs
      have hcover : ∀ s' ∈ (planFinal wsp a0.diff kw).steps,
          dget s'.options "pvcorr" = Option.none := by
        intro s' hs'
        rcases mem_steps_planFinal _ _ _ _ hs' with ⟨o, d, rfl⟩ | rfl
        · exact f.2 o d hs'
        · rfl
      rcases hshape with ⟨ho, d0, hdesc, rfl⟩ | ⟨ho, rfl, hne'⟩
      · rcases List.mem_append.mp hs with hs' | hs'
        · exact hcover s hs'
        · simp only [List.mem_singleton] at hs'
          subst hs'
          exact f.1
      · exact hcover s hs
  · intro hpgm hpwm htiss
    have hpc : (wsp.pgm.isSome || wsp.pwm.isSome) = true := by
      rw [hpgm]
      rfl
    have hsp : (wsp.spatial || (wsp.pgm.isSome || wsp.pwm.isSome)) = true := by
      rw [hpc, Bool.or_true]
    have hgn : wsp.pgm.isNone = false := by
      cases h : wsp.pgm
      · rw [h] at hpgm
        exact Bool.noConfusion hpgm
      · rfl
    have hwn : wsp.pwm.isNone = false := by
      cases h : wsp.pwm
      · rw [h] at hpwm
        exact Bool.noConfusion hpwm
      · rfl
    have hc1 : ((wsp.pgm.isSome || wsp.pwm.isSome) &&
        (wsp.pgm.isNone || wsp.pwm.isNone)) = false := by
      rw [hpgm, hpwm, hgn, hwn]
      rfl
    have hc2 : ((wsp.pgm.isSome || wsp.pwm.isSome) &&
        !(truthy wsp.infertiss)) = false := by
      rw [hpc, htiss]
      rfl
    obtain ⟨hmi, hpvo⟩ := planFinal_pvc_options wsp a0.diff kw hpc
    obtain ⟨hmeth, -, -⟩ := planFinal_spatial_method wsp a0.diff kw hsp
    by_cases ho : wsp.onestep = true
    · obtain ⟨d, hdesc⟩ := planFinal_stepDesc_spatial wsp a0.diff kw hsp
      refine ⟨(planFinal wsp a0.diff kw).steps ++
        [Step.fabber (planFinal wsp a0.diff kw).options d],
        (planFinal wsp a0.diff kw).options, d, ?_, ?_, hpvo, hmeth, hmi⟩
      · simp only [basil_steps]
        rw [if_neg (by rw [hc1]; exact Bool.noConfusion),
          if_neg (by rw [hc2]; exact Bool.noConfusion), if_pos ho, hdesc]
        simp only [isEmpty_append_singleton, Bool.false_eq_true, if_false]
      · exact List.getLast?_concat _
    · have ho' : wsp.onestep = false := by
        cases h : wsp.onestep
        · rfl
        · exact absurd h ho
      obtain ⟨d, hlast⟩ := planFinal_last wsp a0.diff kw hsp ho'
      have hne' : ¬ (planFinal wsp a0.diff kw).steps = [] := by
        intro hnil
        rw [hnil] at hlast
        exact Option.noConfusion hlast
      refine ⟨(planFinal wsp a0.diff kw).steps,
        (planFinal wsp a0.diff kw).options, d, ?_, hlast, hpvo, hmeth, hmi⟩
      simp only [basil_steps]
      rw [if_neg (by rw [hc1]; exact Bool.noConfusion),
        if_neg (by rw [hc2]; exact Bool.noConfusion), if_neg ho,
        if_neg (fun h => hne' (by simpa using h))]
  · intro hpgm hpwm htiss
    have hgn : wsp.pgm.isNone = false := by
      cases h : wsp.pgm
      · rw [h] at hpgm
        exact Bool.noConfusion hpgm
      · rfl
    have hwn : wsp.pwm.isNone = false := by
      cases h : wsp.pwm
      · rw [h] at hpwm
        exact Bool.noConfusion hpwm
      · rfl
    have hc1 : ((wsp.pgm.isSome || wsp.pwm.isSome) &&
        (wsp.pgm.isNone || wsp.pwm.isNone)) = false := by
      rw [hpgm, hpwm, hgn, hwn]
      rfl
    have hc2 : ((wsp.pgm.isSome || wsp.pwm.isSome) &&
        !(truthy wsp.infertiss)) = true := by
      rw [hpgm, htiss]
      rfl
    simp only [basil_steps]
    rw [if_neg (by rw [hc1]; exact Bool.noConfusion), if_pos hc2]

/-- Witness for C5 at four concrete workspaces, one per branch. -/
theorem C5_witness :
    basil_steps c5aWsp (some tAsl) []
      = Except.error (BErr.valueError onePvMapMsg) ∧
    (c5bRun.all (fun s => (dget s.options "pvcorr").isNone)) = true ∧
    ((c5cRun.getLast?).map (fun s => (dget s.options "pvcorr",
      dget s.options "method", dget s.options "max-iterations")))
      = some (some (Val.b true), some (Val.s "spatialvb"), some (Val.n 200)) ∧
    basil_steps c5dWsp (some tAsl) []
      = Except.error (BErr.valueError pvArtOnlyMsg) := by
  refine ⟨?_, ?_, ?_, ?_⟩
  · exact (C5_pv_maps c5aWsp tAsl []).1 (by decide)
  · have h := ((C5_pv_maps c5bWsp tAsl []).2.1 rfl rfl).2 rfl c5bRun rfl
    rw [List.all_eq_true]
    intro s hs
    rw [h s hs]
    rfl
  · obtain ⟨steps, opts, d, hok, hlast, h1, h2, h3⟩ :=
      (C5_pv_maps c5cWsp tAsl []).2.2.1 rfl rfl rfl
    have hsteps : steps = c5cRun := by
      have : (basil_steps c5cWsp (some tAsl) []).toOption.getD [] = c5cRun := rfl
      rw [hok] at this
      exact this
    rw [← hsteps, hlast]
    show some (dget opts "pvcorr", dget opts "method", dget opts "max-iterations")
      = some (some (Val.b true), some (Val.s "spatialvb"), some (Val.n 200))
    rw [h1, h2, h3]
  · exact (C5_pv_maps c5dWsp tAsl []).2.2.2 rfl rfl rfl

/-! ### Per-module option presence/preservation lemmas (for C4) -/

theorem tissueModule_options_ne (wsp : Wsp) (st : PlanState) (k : String)
    (hd : ("infertiss" : String) ≠ k ∨ truthy wsp.infertiss = false) :
    dget (tissueModule wsp st).options k = dget st.options k := by
  unfold tissueModule
  by_cases hf : truthy wsp.infertiss = true
  · have h1 : ("infertiss" : String) ≠ k := by
      rcases hd with h | h
      · exact h
      · rw [hf] at h
        exact Bool.noConfusion h
    rw [if_pos hf]
    exact dget_dset_ne _ _ h1
  · rw [if_neg hf]

theorem artModule_options_ne (wsp : Wsp) (st : PlanState) (k : String)
    (hd : ("inferart" : String) ≠ k ∨ truthy wsp.inferart = false) :
    dget (artModule wsp st).options k = dget st.options k := by
  unfold artModule
  by_cases hf : truthy wsp.inferart = true
  · have h1 : ("inferart" : String) ≠ k := by
      rcases hd with h | h
      · exact h
      · rw [hf] at h
        exact Bool.noConfusion h
    rw [if_pos hf]
    exact dget_dset_ne _ _ h1
  · rw [if_neg hf]

theorem tauModule_options_ne (wsp : Wsp) (st : PlanState) (k : String)
    (hd : ("infertau" : String) ≠ k ∨ truthy wsp.infertau = false) :
    dget (tauModule wsp st).options k = dget st.options k := by
  unfold tauModule
  by_cases hf : truthy wsp.infertau = true
  · have h1 : ("infertau" : String) ≠ k := by
      rcases hd with h | h
      · exact h
      · rw [hf] at h
        exact Bool.noConfusion h
    rw [if_pos hf]
    exact dget_dset_ne _ _ h1
  · rw [if_neg hf]

theorem extModule_options_ne (id ie : Bool) (wsp : Wsp) (st : PlanState)
    (k : String) (hd1 : ("inferdisp" : String) ≠ k ∨ id = false)
    (hd2 : ("inferexch" : String) ≠ k ∨ ie = false)
    (hd3 : ("inferpc" : String) ≠ k ∨ wsp.inferpc = false) :
    dget (extModule id ie wsp st).options k = dget st.options k := by
  unfold extModule
  by_cases hf : (id || ie || wsp.inferpc) = true
  · rw [if_pos hf]
    show dget (if wsp.inferpc then _ else _) k = dget st.options k
    rw [dget_ite_dset_ne' _ _ _ hd3, dget_ite_dset_ne' _ _ _ hd2,
      dget_ite_dset_ne' _ _ _ hd1]
  · rw [if_neg hf]

theorem t1Module_options_ne (wsp : Wsp) (st : PlanState) (k : String)
    (hd : ("infert1" : String) ≠ k ∨ wsp.infert1 = false) :
    dget (t1Module wsp st).options k = dget st.options k := by
  unfold t1Module
  by_cases hf : wsp.infert1 = true
  · have h1 : ("infert1" : String) ≠ k := by
      rcases hd with h | h
      · exact h
      · rw [hf] at h
        exact Bool.noConfusion h
    rw [if_pos hf]
    exact dget_dset_ne _ _ h1
  · rw [if_neg hf]

theorem pvcModule_options_ne (pc : Bool) (wsp : Wsp) (a : AslImage)
    (st : PlanState) (k : String)
    (hd : ("pvcorr" : String) ≠ k ∨ pc = false)
    (hp : k.data.take 10 ≠ "PSP_byname".data) :
    dget (pvcModule pc wsp a st).options k = dget st.options k := by
  unfold pvcModule
  by_cases hf : pc = true
  · have h1 : ("pvcorr" : String) ≠ k := by
      rcases hd with h | h
      · exact h
      · rw [hf] at h
        exact Bool.noConfusion h
    rw [if_pos hf]
    show dget (addPrior (addPrior (addPrior _ _ _ _).1 _ _ _).1 _ _ _).1 k
      = dget st.options k
    rw [dget_addPrior_ne _ _ _ _ _ hp, dget_addPrior_ne _ _ _ _ _ hp,
      dget_addPrior_ne _ _ _ _ _ hp, dget_dset_ne _ _ h1]
  · rw [if_neg hf]

theorem spatialModule_options_ne_any (sp ones : Bool) (st : PlanState)
    (k : String) (hne : ("max-trials" : String) ≠ k) (hA : SvbKeysOk st.svb)
    (hsvb : ¬ k ∈ (["method", "param-spatial-priors", "convergence",
      "max-iterations"] : List String))
    (hp : k.data.take 10 ≠ "PSP_byname".data) :
    dget (spatialModule sp ones st).options k = dget st.options k := by
  by_cases hf : sp = true
  · rw [hf]
    exact spatialModule_options_not_in_svb _ _ _ hne hA hsvb hp
  · unfold spatialModule
    rw [if_neg hf]

theorem tissueModule_options_set (wsp : Wsp) (st : PlanState)
    (hf : truthy wsp.infertiss = true) :
    dget (tissueModule wsp st).options "infertiss" = some (Val.b true) := by
  unfold tissueModule
  rw [if_pos hf]
  exact dget_dset_self _ _ _

theorem artModule_options_set (wsp : Wsp) (st : PlanState)
    (hf : truthy wsp.inferart = true) :
    dget (artModule wsp st).options "inferart" = some (Val.b true) := by
  unfold artModule
  rw [if_pos hf]
  exact dget_dset_self _ _ _

theorem tauModule_options_set (wsp : Wsp) (st : PlanState)
    (hf : truthy wsp.infertau = true) :
    dget (tauModule wsp st).options "infertau" = some (Val.b true) := by
  unfold tauModule
  rw [if_pos hf]
  exact dget_dset_self _ _ _

theorem t1Module_options_set (wsp : Wsp) (st : PlanState)
    (hf : wsp.infert1 = true) :
    dget (t1Module wsp st).options "infert1" = some (Val.b true) := by
  unfold t1Module
  rw [if_pos hf]
  exact dget_dset_self _ _ _

theorem extModule_options_disp (id ie : Bool) (wsp : Wsp) (st : PlanState)
    (hf : id = true) :
    dget (extModule id ie wsp st).options "inferdisp" = some (Val.b true) := by
  unfold extModule
  rw [if_pos (by rw [hf]; rfl)]
  show dget (if wsp.inferpc then _ else _) "inferdisp" = some (Val.b true)
  rw [dget_ite_dset_ne' _ _ _ (Or.inl (by decide)),
    dget_ite_dset_ne' _ _ _ (Or.inl (by decide)), hf]
  show dget (if true then dset st.options "inferdisp" (Val.b true) else _)
    "inferdisp" = some (Val.b true)
  rw [if_pos rfl]
  exact dget_dset_self _ _ _

theorem extModule_options_exch (id ie : Bool) (wsp : Wsp) (st : PlanState)
    (hf : ie = true) :
    dget (extModule id ie wsp st).options "inferexch" = some (Val.b true) := by
  unfold extModule
  rw [if_pos (by rw [hf]; cases id <;> rfl)]
  show dget (if wsp.inferpc then _ else _) "inferexch" = some (Val.b true)
  rw [dget_ite_dset_ne' _ _ _ (Or.inl (by decide)), hf]
  show dget (if true then dset _ "inferexch" (Val.b true) else _)
    "inferexch" = some (Val.b true)
  rw [if_pos rfl]
  exact dget_dset_self _ _ _

theorem extModule_options_pc (id ie : Bool) (wsp : Wsp) (st : PlanState)
    (hf : wsp.inferpc = true) :
    dget (extModule id ie wsp st).options "inferpc" = some (Val.b true) := by
  unfold extModule
  rw [if_pos (by rw [hf]; cases id <;> cases ie <;> rfl)]
  show dget (if wsp.inferpc then dset _ "inferpc" (Val.b true) else _)
    "inferpc" = some (Val.b true)
  rw [hf]
  show dget (if true then dset _ "inferpc" (Val.b true) else _)
    "inferpc" = some (Val.b true)
  rw [if_pos rfl]
  exact dget_dset_self _ _ _

/-! ### Final-options presence lemmas and claim C4 -/

theorem planFinal_svbKeys (wsp : Wsp) (a : AslImage) (kw : Config) :
    SvbKeysOk (pvcModule (wsp.pgm.isSome || wsp.pwm.isSome) wsp a
      (t1Module wsp (extModule
        (dget (assembleOptions wsp a kw) "disp" != some (Val.s "none"))
        (dget (assembleOptions wsp a kw) "exch" != some (Val.s "mix")) wsp
        (tauModule wsp (artModule wsp
          (tissueModule wsp (planInit wsp a kw))))))).svb := by
  apply prePipeline_svbKeys
  rw [planInit_svb]
  exact svb0_keysOk _

theorem planFinal_options_infertiss (wsp : Wsp) (a : AslImage) (kw : Config)
    (hf : truthy wsp.infertiss = true) :
    dget (planFinal wsp a kw).options "infertiss" = some (Val.b true) := by
  unfold planFinal planModules
  rw [spatialModule_options_ne_any _ _ _ _ (by decide)
      (planFinal_svbKeys wsp a kw) (by decide) (by decide),
    pvcModule_options_ne _ _ _ _ _ (Or.inl (by decide)) (by decide),
    t1Module_options_ne _ _ _ (Or.inl (by decide)),
    extModule_options_ne _ _ _ _ _ (Or.inl (by decide)) (Or.inl (by decide))
      (Or.inl (by decide)),
    tauModule_options_ne _ _ _ (Or.inl (by decide)),
    artModule_options_ne _ _ _ (Or.inl (by decide))]
  exact tissueModule_options_set _ _ hf

theorem planFinal_options_inferart (wsp : Wsp) (a : AslImage) (kw : Config)
    (hf : truthy wsp.inferart = true) :
    dget (planFinal wsp a kw).options "inferart" = some (Val.b true) := by
  unfold planFinal planModules
  rw [spatialModule_options_ne_any _ _ _ _ (by decide)
      (planFinal_svbKeys wsp a kw) (by decide) (by decide),
    pvcModule_options_ne _ _ _ _ _ (Or.inl (by decide)) (by decide),
    t1Module_options_ne _ _ _ (Or.inl (by decide)),
    extModule_options_ne _ _ _ _ _ (Or.inl (by decide)) (Or.inl (by decide))
      (Or.inl (by decide)),
    tauModule_options_ne _ _ _ (Or.inl (by decide))]
  exact artModule_options_set _ _ hf

theorem planFinal_options_infertau (wsp : Wsp) (a : AslImage) (kw : Config)
    (hf : truthy wsp.infertau = true) :
    dget (planFinal wsp a kw).options "infertau" = some (Val.b true) := by
  unfold planFinal planModules
  rw [spatialModule_options_ne_any _ _ _ _ (by decide)
      (planFinal_svbKeys wsp a kw) (by decide) (by decide),
    pvcModule_options_ne _ _ _ _ _ (Or.inl (by decide)) (by decide),
    t1Module_options_ne _ _ _ (Or.inl (by decide)),
    extModule_options_ne _ _ _ _ _ (Or.inl (by decide)) (Or.inl (by decide))
      (Or.inl (by decide))]
  exact tauModule_options_set _ _ hf

theorem planFinal_options_infert1 (wsp : Wsp) (a : AslImage) (kw : Config)
    (hf : wsp.infert1 = true) :
    dget (planFinal wsp a kw).options "infert1" = some (Val.b true) := by
  unfold planFinal planModules
  rw [spatialModule_options_ne_any _ _ _ _ (by decide)
      (planFinal_svbKeys wsp a kw) (by decide) (by decide),
    pvcModule_options_ne _ _ _ _ _ (Or.inl (by decide)) (by decide)]
  exact t1Module_options_set _ _ hf

theorem planFinal_options_inferdisp (wsp : Wsp) (a : AslImage) (kw : Config)
    (hf : (dget (assembleOptions wsp a kw) "disp" != some (Val.s "none")) = true) :
    dget (planFinal wsp a kw).options "inferdisp" = some (Val.b true) := by
  unfold planFinal planModules
  rw [spatialModule_options_ne_any _ _ _ _ (by decide)
      (planFinal_svbKeys wsp a kw) (by decide) (by decide),
    pvcModule_options_ne _ _ _ _ _ (Or.inl (by decide)) (by decide),
    t1Module_options_ne _ _ _ (Or.inl (by decide))]
  exact extModule_options_disp _ _ _ _ hf

theorem planFinal_options_inferexch (wsp : Wsp) (a : AslImage) (kw : Config)
    (hf : (dget (assembleOptions wsp a kw) "exch" != some (Val.s "mix")) = true) :
    dget (planFinal wsp a kw).options "inferexch" = some (Val.b true) := by
  unfold planFinal planModules
  rw [spatialModule_options_ne_any _ _ _ _ (by decide)
      (planFinal_svbKeys wsp a kw) (by decide) (by decide),
    pvcModule_options_ne _ _ _ _ _ (Or.inl (by decide)) (by decide),
    t1Module_options_ne _ _ _ (Or.inl (by decide))]
  exact extModule_options_exch _ _ _ _ hf

theorem planFinal_options_inferpc (wsp : Wsp) (a : AslImage) (kw : Config)
    (hf : wsp.inferpc = true) :
    dget (planFinal wsp a kw).options "inferpc" = some (Val.b true) := by
  unfold planFinal planModules
  rw [spatialModule_options_ne_any _ _ _ _ (by decide)
      (planFinal_svbKeys wsp a kw) (by decide) (by decide),
    pvcModule_options_ne _ _ _ _ _ (Or.inl (by decide)) (by decide),
    t1Module_options_ne _ _ _ (Or.inl (by decide))]
  exact extModule_options_pc _ _ _ _ hf

/-- C4: in single-step mode a successful planning run produces exactly one
step, and its configuration carries the option overlays of every
individually-enabled feature (inference/inclusion flags for tissue,
arterial, bolus duration, T1, pre-capillary; dispersion/exchange flags; the
PV-correction option; and the spatial-step overlay), with no intermediate
steps recorded. -/
theorem C4_onestep (wsp : Wsp) (a0 : AslImage) (kw : Config) (steps : List Step)
    (ho : wsp.onestep = true)
    (_hfeat : truthy wsp.infertiss = true ∨ truthy wsp.inferart = true ∨
      truthy wsp.infertau = true ∨ wsp.infert1 = true ∨ wsp.inferpc = true ∨
      (dget (assembleOptions wsp a0.diff kw) "disp" != some (Val.s "none")) = true ∨
      (dget (assembleOptions wsp a0.diff kw) "exch" != some (Val.s "mix")) = true ∨
      wsp.spatial = true ∨ (wsp.pgm.isSome || wsp.pwm.isSome) = true)
    (hok : basil_steps wsp (some a0) kw = Except.ok steps) :
    ∃ opts d, steps = [Step.fabber opts d] ∧
      (truthy wsp.infertiss = true →
        dget opts "infertiss" = some (Val.b true) ∧
        dget opts "inctiss" = some (Val.b true)) ∧
      (truthy wsp.inferart = true →
        dget opts "inferart" = some (Val.b true) ∧
        dget opts "incart" = some (Val.b true)) ∧
      (truthy wsp.infertau = true →
        dget opts "infertau" = some (Val.b true) ∧
        dget opts "inctau" = some (Val.b true)) ∧
      (wsp.infert1 = true →
        dget opts "infert1" = some (Val.b true) ∧
        dget opts "inct1" = some (Val.b true)) ∧
      (wsp.inferpc = true →
        dget opts "inferpc" = some (Val.b true) ∧
        dget opts "incpc" = some (Val.b true)) ∧
      ((dget (assembleOptions wsp a0.diff kw) "disp" != some (Val.s "none"))
        = true → dget opts "inferdisp" = some (Val.b true)) ∧
      ((dget (assembleOptions wsp a0.diff kw) "exch" != some (Val.s "mix"))
        = true → dget opts "inferexch" = some (Val.b true)) ∧
      ((wsp.pgm.isSome || wsp.pwm.isSome) = true →
        dget opts "pvcorr" = some (Val.b true) ∧
        dget opts "max-iterations" = some (Val.n 200)) ∧
      ((wsp.spatial || (wsp.pgm.isSome || wsp.pwm.isSome)) = true →
        dget opts "method" = some (Val.s "spatialvb") ∧
        dget opts "convergence" = some (Val.s "maxiters") ∧
        dget opts "max-trials" = Option.none) := by
  obtain ⟨-, -, hshape⟩ := basil_steps_ok_inv wsp a0 kw steps hok
  rcases hshape with ⟨-, d0, hdesc, rfl⟩ | ⟨ho', -, -⟩
  · refine ⟨(planFinal wsp a0.diff kw).options, d0, ?_, ?_, ?_, ?_, ?_, ?_,
      ?_, ?_, ?_, ?_⟩
    · rw [planFinal_steps_onestep wsp a0.diff kw ho]
      rfl
    · intro hf
      refine ⟨planFinal_options_infertiss _ _ _ hf, ?_⟩
      have f := planFinal_fabInv wsp a0.diff kw "inctiss" (some (Val.b true))
        (Or.inl (by decide)) (Or.inl (by decide)) (Or.inl (by decide))
        (Or.inl (by decide)) (Or.inl (by decide)) (Or.inl (by decide))
        (Or.inl (by decide)) (Or.inl (by decide)) (by decide) (by decide)
        (by decide) (dget_preOptions_inctiss _ _ hf)
      exact f.1
    · intro hf
      refine ⟨planFinal_options_inferart _ _ _ hf, ?_⟩
      have f := planFinal_fabInv wsp a0.diff kw "incart" (some (Val.b true))
        (Or.inl (by decide)) (Or.inl (by decide)) (Or.inl (by decide))
        (Or.inl (by decide)) (Or.inl (by decide)) (Or.inl (by decide))
        (Or.inl (by decide)) (Or.inl (by decide)) (by decide) (by decide)
        (by decide) (dget_preOptions_incart _ _ hf)
      exact f.1
    · intro hf
      refine ⟨planFinal_options_infertau _ _ _ hf, ?_⟩
      have f := planFinal_fabInv wsp a0.diff kw "inctau" (some (Val.b true))
        (Or.inl (by decide)) (Or.inl (by decide)) (Or.inl (by decide))
        (Or.inl (by decide)) (Or.inl (by decide)) (Or.inl (by decide))
        (Or.inl (by decide)) (Or.inl (by decide)) (by decide) (by decide)
        (by decide) (dget_preOptions_inctau _ _ hf)
      exact f.1
    · intro hf
      refine ⟨planFinal_options_infert1 _ _ _ hf, ?_⟩
      have f := planFinal_fabInv wsp a0.diff kw "inct1" (some (Val.b true))
        (Or.inl (by decide)) (Or.inl (by decide)) (Or.inl (by decide))
        (Or.inl (by decide)) (Or.inl (by decide)) (Or.inl (by decide))
        (Or.inl (by decide)) (Or.inl (by decide)) (by decide) (by decide)
        (by decide) (dget_preOptions_inct1 _ _ hf)
      exact f.1
    · intro hf
      refine ⟨planFinal_options_inferpc _ _ _ hf, ?_⟩
      have f := planFinal_fabInv wsp a0.diff kw "incpc" (some (Val.b true))
        (Or.inl (by decide)) (Or.inl (by decide)) (Or.inl (by decide))
        (Or.inl (by decide)) (Or.inl (by decide)) (Or.inl (by decide))
        (Or.inl (by decide)) (Or.inl (by decide)) (by decide) (by decide)
        (by decide) (dget_preOptions_incpc _ _ hf)
      exact f.1
    · exact fun hf => planFinal_options_inferdisp _ _ _ hf
    · exact fun hf => planFinal_options_inferexch _ _ _ hf
    · intro hf
      obtain ⟨h1, h2⟩ := planFinal_pvc_options wsp a0.diff kw hf
      exact ⟨h2, h1⟩
    · intro hf
      obtain ⟨h1, h2, h3⟩ := planFinal_spatial_method wsp a0.diff kw hf
      exact ⟨h1, h2, h3⟩
  · rw [ho] at ho'
    exact Bool.noConfusion ho'

/-- Witness for C4 at a concrete single-step workspace with tissue,
arterial and spatial features enabled. -/
theorem C4_witness :
    c4Run.length = 1 ∧
    ((c4Run.head?).map (fun s => (dget s.options "infertiss",
      dget s.options "inferart", dget s.options "method")))
      = some (some (Val.b true), some (Val.b true), some (Val.s "spatialvb")) := by
  have hok : basil_steps c4Wsp (some tAsl) [] = Except.ok c4Run := rfl
  obtain ⟨opts, d, hsteps, htiss, hart, -, -, -, -, -, -, hspat⟩ :=
    C4_onestep c4Wsp tAsl [] c4Run rfl (Or.inl rfl) hok
  rw [hsteps]
  refine ⟨rfl, ?_⟩
  show some (dget opts "infertiss", dget opts "inferart", dget opts "method")
    = some (some (Val.b true), some (Val.b true), some (Val.s "spatialvb"))
  rw [(htiss rfl).1, (hart rfl).1, (hspat rfl).1]

/-! ### Claim C7: mode-dependent defaults -/

theorem wspSingleTi_wp (w : Wsp) : (wspSingleTi w).wp = w.wp := by
  unfold wspSingleTi
  split <;> rfl

theorem wspSingleTi_casl (w : Wsp) : (wspSingleTi w).casl = w.casl := by
  unfold wspSingleTi
  split <;> rfl

theorem wspSingleTi_t1 (w : Wsp) : (wspSingleTi w).t1 = w.t1 := by
  unfold wspSingleTi
  split <;> rfl

theorem wspSingleTi_bat (w : Wsp) : (wspSingleTi w).bat = w.bat := by
  unfold wspSingleTi
  split <;> rfl

theorem wspSingleTi_tau (w : Wsp) : (wspSingleTi w).tau = w.tau := by
  unfold wspSingleTi
  split <;> rfl

theorem defT1_bat (w : Wsp) (v : ℚ) : (defT1 w v).bat = w.bat := by
  unfold defT1
  split <;> rfl

theorem defT1_tau (w : Wsp) (v : ℚ) : (defT1 w v).tau = w.tau := by
  unfold defT1
  split <;> rfl

theorem defT1b_t1 (w : Wsp) : (defT1b w).t1 = w.t1 := by
  unfold defT1b
  split <;> rfl

theorem defT1b_bat (w : Wsp) : (defT1b w).bat = w.bat := by
  unfold defT1b
  split <;> rfl

theorem defT1b_tau (w : Wsp) : (defT1b w).tau = w.tau := by
  unfold defT1b
  split <;> rfl

theorem defBat_t1 (w : Wsp) (v : ℚ) : (defBat w v).t1 = w.t1 := by
  unfold defBat
  split <;> rfl

theorem defBat_tau (w : Wsp) (v : ℚ) : (defBat w v).tau = w.tau := by
  unfold defBat
  split <;> rfl

theorem defTau_t1 (w : Wsp) : (defTau w).t1 = w.t1 := by
  unfold defTau
  split <;> rfl

theorem defTau_bat (w : Wsp) : (defTau w).bat = w.bat := by
  unfold defTau
  split <;> rfl

theorem defInfertiss_t1 (w : Wsp) : (defInfertiss w).t1 = w.t1 := by
  unfold defInfertiss
  split <;> rfl

theorem defInfertiss_bat (w : Wsp) : (defInfertiss w).bat = w.bat := by
  unfold defInfertiss
  split <;> rfl

theorem defInfertiss_tau (w : Wsp) : (defInfertiss w).tau = w.tau := by
  unfold defInfertiss
  split <;> rfl

theorem defInfertau_t1 (w : Wsp) : (defInfertau w).t1 = w.t1 := by
  unfold defInfertau
  split <;> rfl

theorem defInfertau_bat (w : Wsp) : (defInfertau w).bat = w.bat := by
  unfold defInfertau
  split <;> rfl

theorem defInfertau_tau (w : Wsp) : (defInfertau w).tau = w.tau := by
  unfold defInfertau
  split <;> rfl

theorem defT1_t1_none (w : Wsp) (v : ℚ) (h : w.t1 = Option.none) :
    (defT1 w v).t1 = some v := by
  unfold defT1
  rw [if_pos h]

theorem defT1_t1_some (w : Wsp) (v v' : ℚ) (h : w.t1 = some v) :
    (defT1 w v').t1 = some v := by
  unfold defT1
  rw [if_neg (by rw [h]; exact fun x => Option.noConfusion x)]
  exact h

theorem defBat_bat_none (w : Wsp) (v : ℚ) (h : w.bat = Option.none) :
    (defBat w v).bat = some v := by
  unfold defBat
  rw [if_pos h]

theorem defBat_bat_some (w : Wsp) (v v' : ℚ) (h : w.bat = some v) :
    (defBat w v').bat = some v := by
  unfold defBat
  rw [if_neg (by rw [h]; exact fun x => Option.noConfusion x)]
  exact h

theorem defTau_tau_none (w : Wsp) (h : w.tau = Option.none) :
    (defTau w).tau = some (9/5 : ℚ) := by
  unfold defTau
  rw [if_pos h]

theorem defTau_tau_some (w : Wsp) (v : ℚ) (h : w.tau = some v) :
    (defTau w).tau = some v := by
  unfold defTau
  rw [if_neg (by rw [h]; exact fun x => Option.noConfusion x)]
  exact h

/-- C7: with no explicit values, white-paper mode yields tissue-T1 default
1.65 (= 33/20) and bolus-arrival-time default 0; otherwise tissue-T1 is 1.3
(= 13/10) and bolus arrival time is 1.3 for continuous labelling, else 0.7
(= 7/10); bolus duration defaults to 1.8 (= 9/5) in both modes; explicitly
supplied values always override the defaults. -/
theorem C7_defaults (wsp : Wsp) :
    (wsp.t1 = Option.none → (basilDefaults wsp).t1 =
      some (if wsp.wp then (33/20 : ℚ) else (13/10 : ℚ))) ∧
    (wsp.bat = Option.none → (basilDefaults wsp).bat =
      some (if wsp.wp then 0 else
        if truthy wsp.casl then (13/10 : ℚ) else (7/10 : ℚ))) ∧
    (wsp.tau = Option.none → (basilDefaults wsp).tau = some (9/5 : ℚ)) ∧
    (∀ v, wsp.t1 = some v → (basilDefaults wsp).t1 = some v) ∧
    (∀ v, wsp.bat = some v → (basilDefaults wsp).bat = some v) ∧
    (∀ v, wsp.tau = some v → (basilDefaults wsp).tau = some v) := by
  refine ⟨?_, ?_, ?_, ?_, ?_, ?_⟩
  · intro h
    unfold basilDefaults
    rw [defInfertau_t1, defInfertiss_t1, defTau_t1, defBat_t1, defT1b_t1,
      defT1_t1_none _ _ (by rw [wspSingleTi_t1]; exact h), wspSingleTi_wp]
  · intro h
    unfold basilDefaults
    rw [defInfertau_bat, defInfertiss_bat, defTau_bat,
      defBat_bat_none _ _
        (by rw [defT1b_bat, defT1_bat, wspSingleTi_bat]; exact h),
      wspSingleTi_wp, wspSingleTi_casl]
  · intro h
    unfold basilDefaults
    rw [defInfertau_tau, defInfertiss_tau,
      defTau_tau_none _
        (by rw [defBat_tau, defT1b_tau, defT1_tau, wspSingleTi_tau]; exact h)]
  · intro v h
    unfold basilDefaults
    rw [defInfertau_t1, defInfertiss_t1, defTau_t1, defBat_t1, defT1b_t1,
      defT1_t1_some _ v _ (by rw [wspSingleTi_t1]; exact h)]
  · intro v h
    unfold basilDefaults
    rw [defInfertau_bat, defInfertiss_bat, defTau_bat,
      defBat_bat_some _ v _
        (by rw [defT1b_bat, defT1_bat, wspSingleTi_bat]; exact h)]
  · intro v h
    unfold basilDefaults
    rw [defInfertau_tau, defInfertiss_tau,
      defTau_tau_some _ v
        (by rw [defBat_tau, defT1b_tau, defT1_tau, wspSingleTi_tau]; exact h)]

/-- Witness for C7 at concrete workspaces: white-paper defaults, explicit
overrides, and the continuous-labelling bolus-arrival-time default. -/
theorem C7_witness :
    (basilDefaults c7aWsp).t1 = some (33/20 : ℚ) ∧
    (basilDefaults c7aWsp).bat = some 0 ∧
    (basilDefaults c7aWsp).tau = some (9/5 : ℚ) ∧
    (basilDefaults c7bWsp).t1 = some 2 ∧
    (basilDefaults c7bWsp).bat = some 3 ∧
    (basilDefaults c7bWsp).tau = some 4 ∧
    (basilDefaults c7cWsp).bat = some (13/10 : ℚ) := by
  refine ⟨(C7_defaults c7aWsp).1 rfl, (C7_defaults c7aWsp).2.1 rfl,
    (C7_defaults c7aWsp).2.2.1 rfl, (C7_defaults c7bWsp).2.2.2.1 2 rfl,
    (C7_defaults c7bWsp).2.2.2.2.1 3 rfl,
    (C7_defaults c7bWsp).2.2.2.2.2 4 rfl,
    (C7_defaults c7cWsp).2.1 rfl⟩

/-! ### Claim C8: empty-plan error -/

/-- C8: with no inference features enabled, the non-single-step planner
raises the intended empty-step-plan configuration error, and the planner
never returns an empty step list; but in single-step mode the same
all-disabled configuration instead escapes with an unbound-local
(`step_desc`) error, because the single-step branch reads `step_desc`
before the empty-plan check runs. -/
theorem C8_no_steps :
    basil_steps c8aWsp (some tAsl) [] =
      Except.error (BErr.nameError "step_desc") ∧
    basil_steps c8bWsp (some tAsl) [] =
      Except.error (BErr.valueError noStepsMsg) ∧
    ∀ wsp a kw, returnsEmptyPlan (basil_steps wsp a kw) = false := by
  refine ⟨rfl, rfl, ?_⟩
  intro wsp a kw
  cases a with
  | none => rfl
  | some a0 =>
    cases hr : basil_steps wsp (some a0) kw with
    | error e => rfl
    | ok steps =>
      obtain ⟨-, -, hshape⟩ := basil_steps_ok_inv wsp a0 kw steps hr
      cases hshape with
      | inl h =>
        obtain ⟨-, d, -, hs⟩ := h
        rw [hs]
        cases (planFinal wsp a0.diff kw).steps <;> rfl
      | inr h =>
        obtain ⟨-, hs, hne⟩ := h
        rw [hs]
        cases hx : (planFinal wsp a0.diff kw).steps with
        | nil => exact absurd hx hne
        | cons s l => rfl

/-! ### Claim C3: free-form overrides -/

/-- C3 counterexample: with the spatial step enabled, a free-form override
for "convergence" survives into the first planned step's configuration but
is overwritten by the spatial overlay ("maxiters") in the final step, so
the overrides do not take precedence in every planned step. -/
theorem C3_counterexample :
    (basil_steps c3Wsp (some tAsl) [("convergence", Val.s "foo")]).map
        (fun steps => steps.map (fun s => dget s.options "convergence")) =
      Except.ok [some (Val.s "foo"), some (Val.s "maxiters")] := rfl

/-- C3 (amended): free-form engine overrides take precedence over the
computed defaults in the assembled base configuration that planning starts
from (they are applied on top of the base, timing and workspace-attribute
options); later per-step overlays such as the spatial step's convergence
options may still replace them in individual steps. -/
theorem C3_overrides (wsp : Wsp) (a : AslImage) (kw : Config)
    (k : String) (v : Val) (hnd : (kw.map Prod.fst).Nodup)
    (h : dget kw k = some v) :
    dget (assembleOptions wsp a kw) k = some v :=
  dget_assembleOptions_kwargs wsp a kw k v hnd h

/-- Witness for C3 at a concrete override. -/
theorem C3_witness :
    (([("convergence", Val.s "foo")] : Config).map Prod.fst).Nodup ∧
    dget [("convergence", Val.s "foo")] "convergence" = some (Val.s "foo") ∧
    dget (assembleOptions c3Wsp tAsl [("convergence", Val.s "foo")])
        "convergence" = some (Val.s "foo") :=
  ⟨by decide, rfl,
    C3_overrides c3Wsp tAsl [("convergence", Val.s "foo")] "convergence"
      (Val.s "foo") (by decide) rfl⟩

/-! ### Claim C2: the PVC initialisation formula -/

theorem gmcbfInit_eq_spec (f w g : List ℚ) :
    gmcbfInit f w g = gmSpecFormula f w g := by
  induction f generalizing w g with
  | nil => cases w <;> cases g <;> rfl
  | cons x xs ih =>
    cases w with
    | nil => cases g <;> rfl
    | cons y ys =>
      cases g with
      | nil => rfl
      | cons z zs =>
        have hmax : (if z < (1/5 : ℚ) then (1/5 : ℚ) else z) = max z (1/5) := by
          rcases lt_or_le z (1/5 : ℚ) with h | h
          · rw [if_pos h, max_eq_right h.le]
          · rw [if_neg (not_lt.mpr h), max_eq_left h]
        simp only [gmcbfInit, wmCbfTerm, clipPgm, gmSpecFormula,
          List.zip_cons_cons, List.zipWith_cons_cons, List.map_cons]
        refine List.cons_eq_cons.mpr ⟨?_, ?_⟩
        · rw [hmax]
          congr 1
          ring
        · exact ih ys zs

theorem wmcbfInit_eq_spec (f w g : List ℚ) :
    wmcbfInit f w g = wmSpecFormula f w g := by
  unfold wmcbfInit wmSpecFormula
  rw [gmcbfInit_eq_spec]
  exact List.map_congr_left (fun a _ => mul_comm a (2/5 : ℚ))

/-- C2: a PVC initialisation step run on a previous result with converged
tissue-perfusion map P, grey/white fraction maps G and W, computes the
grey-matter initial estimate (P - 0.4*P*W) / max(G, 0.2) voxelwise and the
white-matter estimate 0.4 times that, writes both into the previous
posterior representation as parameter means with fixed variance 0.1
restricted to the mask, and returns the updated posterior only. -/
theorem C2_pvc_init (E : Config → StepResult) (opts : Config) (d : String)
    (prev : StepResult) (mask : List Bool) (pgm pwm ftiss : List ℚ) (mvn : MVN)
    (hm : dget opts "mask" = some (Val.mask mask))
    (hg : dget opts "pgm" = some (Val.img pgm))
    (hw : dget opts "pwm" = some (Val.img pwm))
    (hf : dget prev "mean_ftiss" = some (Val.img ftiss))
    (hv : dget prev "finalMVN" = some (Val.mvn mvn)) :
    runStep E (Step.pvcInit opts d) (some prev) =
      Except.ok (opts, [("finalMVN", Val.mvn
        (mvntool
          (mvntool mvn "ftiss" mask (gmSpecFormula ftiss pwm pgm) (1/10 : ℚ))
          "fwm" mask (wmSpecFormula ftiss pwm pgm) (1/10 : ℚ)))]) := by
  have hrun : pvcRun opts prev = Except.ok [("finalMVN", Val.mvn
      (mvntool
        (mvntool mvn "ftiss" mask (gmSpecFormula ftiss pwm pgm) (1/10 : ℚ))
        "fwm" mask (wmSpecFormula ftiss pwm pgm) (1/10 : ℚ)))] := by
    simp only [pvcRun, getKey, hm, hg, hf, hw, hv]
    rw [gmcbfInit_eq_spec, wmcbfInit_eq_spec]
  simp only [runStep, hrun]

/-- Witness for C2: one voxel with P = 50, G = 0.6, W = 0.3 and an empty
previous posterior yields grey estimate 220/3 and white estimate 88/3. -/
theorem C2_witness :
    runStep (fun _ => []) (Step.pvcInit c2Opts "PVC initialisation")
        (some c2Prev) =
      Except.ok (c2Opts, [("finalMVN", Val.mvn
        [("ftiss", [(220 : ℚ)/3], (1/10 : ℚ)),
         ("fwm", [(88 : ℚ)/3], (1/10 : ℚ))])]) := by
  have h := C2_pvc_init (fun _ => []) c2Opts "PVC initialisation" c2Prev
    [true] [(3/5 : ℚ)] [(3/10 : ℚ)] [(50 : ℚ)] [] rfl rfl rfl rfl rfl
  rw [h]
  have hmax : max (3/5 : ℚ) (1/5 : ℚ) = 3/5 := max_eq_left (by norm_num)
  have hgm : gmSpecFormula [(50 : ℚ)] [(3/10 : ℚ)] [(3/5 : ℚ)] =
      [(220 : ℚ)/3] := by
    simp only [gmSpecFormula, List.zip_cons_cons, List.zip_nil_right,
      List.zipWith_cons_cons, List.zipWith_nil_right, hmax]
    norm_num
  have hwm : wmSpecFormula [(50 : ℚ)] [(3/10 : ℚ)] [(3/5 : ℚ)] =
      [(88 : ℚ)/3] := by
    rw [wmSpecFormula, hgm]
    simp only [List.map_cons, List.map_nil]
    norm_num
  rw [hgm, hwm]
  rfl

/-! ### Claim C9: the pre-fit path of `basil` -/

theorem wspSingleTi_asldata (w : Wsp) : (wspSingleTi w).asldata = w.asldata := by
  unfold wspSingleTi
  split <;> rfl

theorem defT1_asldata (w : Wsp) (v : ℚ) : (defT1 w v).asldata = w.asldata := by
  unfold defT1
  split <;> rfl

theorem defT1b_asldata (w : Wsp) : (defT1b w).asldata = w.asldata := by
  unfold defT1b
  split <;> rfl

theorem defBat_asldata (w : Wsp) (v : ℚ) : (defBat w v).asldata = w.asldata := by
  unfold defBat
  split <;> rfl

theorem defTau_asldata (w : Wsp) : (defTau w).asldata = w.asldata := by
  unfold defTau
  split <;> rfl

theorem defInfertiss_asldata (w : Wsp) :
    (defInfertiss w).asldata = w.asldata := by
  unfold defInfertiss
  split <;> rfl

theorem defInfertau_asldata (w : Wsp) :
    (defInfertau w).asldata = w.asldata := by
  unfold defInfertau
  split <;> rfl

theorem basilDefaults_asldata (w : Wsp) :
    (basilDefaults w).asldata = w.asldata := by
  simp only [basilDefaults]
  rw [defInfertau_asldata, defInfertiss_asldata, defTau_asldata,
    defBat_asldata, defT1b_asldata, defT1_asldata, wspSingleTi_asldata]

theorem foldl_max_le_one : ∀ (l : List Nat) (a : Nat), a ≤ 1 →
    (∀ r ∈ l, r ≤ 1) → l.foldl max a ≤ 1
  | [], _, ha, _ => ha
  | x :: xs, a, ha, h =>
      foldl_max_le_one xs (max a x)
        (max_le ha (h x (List.mem_cons_self x xs)))
        (fun r hr => h r (List.mem_cons_of_mem x hr))

theorem getLast?_exists_of_ne_nil {α : Type} :
    ∀ (l : List α), l ≠ [] → ∃ a, l.getLast? = some a
  | [], h => absurd rfl h
  | [x], _ => ⟨x, rfl⟩
  | x :: y :: t, _ => by
      obtain ⟨a, ha⟩ := getLast?_exists_of_ne_nil (y :: t) (List.cons_ne_nil y t)
      exact ⟨a, by rw [List.getLast?_cons_cons]; exact ha⟩

theorem mem_of_getLast?_eq {α : Type} :
    ∀ (l : List α) (a : α), l.getLast? = some a → a ∈ l
  | [], _, h => Option.noConfusion h
  | [x], a, h => by
      injection h with h'
      rw [← h']
      exact List.mem_singleton_self x
  | x :: y :: t, a, h => by
      rw [List.getLast?_cons_cons] at h
      exact List.mem_cons_of_mem x (mem_of_getLast?_eq (y :: t) a h)

theorem basil_fit_ok_inv (E : Config → StepResult) (wsp : Wsp)
    (a? : Option AslImage) (kw : Config) (rs : List (Config × StepResult))
    (h : basil_fit E wsp a? kw = Except.ok rs) :
    ∃ steps, basil_steps wsp a? kw = Except.ok steps ∧
      runChain E steps Option.none = Except.ok rs := by
  simp only [basil_fit] at h
  split at h
  · exact Except.noConfusion h
  · rename_i steps hst
    exact ⟨steps, hst, h⟩

theorem basil_steps_ok_ne_nil (wsp : Wsp) (a0 : AslImage) (kw : Config)
    (steps : List Step) (h : basil_steps wsp (some a0) kw = Except.ok steps) :
    steps ≠ [] := by
  obtain ⟨-, -, hshape⟩ := basil_steps_ok_inv wsp a0 kw steps h
  cases hshape with
  | inl hsh =>
      obtain ⟨-, d, -, hs⟩ := hsh
      rw [hs]
      exact fun hnil => by simpa using congrArg List.length hnil
  | inr hsh =>
      obtain ⟨-, hs, hne⟩ := hsh
      rw [hs]
      exact hne

theorem runChain_ok_ne_nil (E : Config → StepResult) (steps : List Step)
    (rs : List (Config × StepResult)) (hne : steps ≠ [])
    (h : runChain E steps Option.none = Except.ok rs) : rs ≠ [] := by
  intro hnil
  have hl := runChain_length E steps Option.none rs h
  rw [hnil] at hl
  exact hne (List.length_eq_zero.mp hl.symm)

theorem basil_prefit_ok_inv (E : Config → StepResult) (wsp0 : Wsp)
    (out : BasilOut)
    (hc : 1 < (basilDefaults wsp0).asldata.rpts.foldl max 0)
    (hok : basil E wsp0 true = Except.ok out) :
    ∃ ic mc,
      basil_fit E (basilDefaults wsp0)
        (some (basilDefaults wsp0).asldata.meanAcrossRepeats)
        ((basilDefaults wsp0).basil_options.getD []) = Except.ok ic ∧
      basil_fit E { basilDefaults wsp0 with initmvn := lastMVN ic }
        (some ({ basilDefaults wsp0 with initmvn := lastMVN ic } : Wsp).asldata)
        ((basilDefaults wsp0).basil_options.getD []) = Except.ok mc ∧
      out = { initChain := some ic, mainChain := mc } := by
  simp only [basil] at hok
  rw [if_pos ⟨trivial, hc⟩] at hok
  split at hok
  · exact Except.noConfusion hok
  · rename_i ic hic
    split at hok
    · exact Except.noConfusion hok
    · rename_i mc hmc
      injection hok with h'
      exact ⟨ic, mc, hic, hmc, h'.symm⟩

theorem basil_noprefit_ok_inv (E : Config → StepResult) (wsp0 : Wsp)
    (out : BasilOut)
    (hc : ¬ 1 < (basilDefaults wsp0).asldata.rpts.foldl max 0)
    (hok : basil E wsp0 true = Except.ok out) :
    ∃ mc,
      basil_fit E (basilDefaults wsp0) (some (basilDefaults wsp0).asldata)
        ((basilDefaults wsp0).basil_options.getD []) = Except.ok mc ∧
      out = { initChain := Option.none, mainChain := mc } := by
  simp only [basil] at hok
  rw [if_neg (fun hand => hc hand.2)] at hok
  split at hok
  · exact Except.noConfusion hok
  · rename_i mc hmc
    injection hok with h'
    exact ⟨mc, hmc, h'.symm⟩

/-- C9: in a top-level run with pre-fit requested: when some timepoint has
more than one repeat, a chain runs on the repeat-averaged data first and the
full-data chain's first submitted configuration carries, under the reserved
key "continue-from-mvn", exactly the pre-fit chain's final posterior; when
all repeat counts are 1, no pre-fit chain runs and the full-data chain still
runs (its recorded result list is non-empty). -/
theorem C9_prefit (E : Config → StepResult) (wsp0 : Wsp) (out : BasilOut)
    (hE : ∀ cfg, ∃ m, dget (E cfg) "finalMVN" = some (Val.mvn m))
    (hok : basil E wsp0 true = Except.ok out) :
    (1 < wsp0.asldata.rpts.foldl max 0 →
      ∃ ic mLast p tail cr,
        out.initChain = some ic ∧
        ic.getLast? = some cr ∧
        dget cr.2 "finalMVN" = some (Val.mvn mLast) ∧
        out.mainChain = p :: tail ∧
        dget p.1 "continue-from-mvn" = some (Val.mvn mLast)) ∧
    ((∀ r ∈ wsp0.asldata.rpts, r = 1) →
      out.initChain = Option.none ∧ out.mainChain ≠ []) := by
  constructor
  · intro hc
    have hcW : 1 < (basilDefaults wsp0).asldata.rpts.foldl max 0 := by
      rw [basilDefaults_asldata]
      exact hc
    obtain ⟨ic, mc, hic, hmc, hout⟩ := basil_prefit_ok_inv E wsp0 out hcW hok
    obtain ⟨isteps, hist, hirun⟩ := basil_fit_ok_inv E _ _ _ ic hic
    have histne := basil_steps_ok_ne_nil _ _ _ isteps hist
    have hicne := runChain_ok_ne_nil E isteps ic histne hirun
    obtain ⟨crLast, hgl⟩ := getLast?_exists_of_ne_nil ic hicne
    have hmemL := mem_of_getLast?_eq ic crLast hgl
    obtain ⟨mLast, hlast⟩ :=
      runChain_results_finalMVN E hE isteps Option.none ic hirun crLast hmemL
    have hinit : ({ basilDefaults wsp0 with
        initmvn := lastMVN ic } : Wsp).initmvn = some (Val.mvn mLast) := by
      show lastMVN ic = some (Val.mvn mLast)
      unfold lastMVN
      rw [hgl]
      exact hlast
    obtain ⟨msteps, hmst, hmrun⟩ := basil_fit_ok_inv E _ _ _ mc hmc
    have FI : FabInv "continue-from-mvn" (some (Val.mvn mLast))
        (planFinal { basilDefaults wsp0 with initmvn := lastMVN ic }
          (({ basilDefaults wsp0 with initmvn := lastMVN ic } : Wsp).asldata.diff)
          ((basilDefaults wsp0).basil_options.getD [])) := by
      refine planFinal_fabInv _ _ _ _ _ (Or.inl (by decide)) (Or.inl (by decide))
        (Or.inl (by decide)) (Or.inl (by decide)) (Or.inl (by decide))
        (Or.inl (by decide)) (Or.inl (by decide)) (Or.inl (by decide))
        (by decide) (by decide) (by decide) ?_
      have ht : valTruthy ({ basilDefaults wsp0 with
          initmvn := lastMVN ic } : Wsp).initmvn = true := by
        rw [hinit]
        rfl
      rw [dget_preOptions_cfm _ _ ht, hinit]
      rfl
    obtain ⟨-, -, hshape⟩ := basil_steps_ok_inv _ _ _ msteps hmst
    have hfab : ∃ opts d, msteps.head? = some (Step.fabber opts d) ∧
        dget opts "continue-from-mvn" = some (Val.mvn mLast) := by
      cases hshape with
      | inl hsh =>
          obtain ⟨ho1, d, hsd, hms⟩ := hsh
          rw [planFinal_steps_onestep _ _ _ ho1, List.nil_append] at hms
          exact ⟨_, d, by rw [hms]; rfl, FI.1⟩
      | inr hsh =>
          obtain ⟨ho0, hms, hne⟩ := hsh
          cases planFinal_headFab { basilDefaults wsp0 with initmvn := lastMVN ic }
              (({ basilDefaults wsp0 with initmvn := lastMVN ic } : Wsp).asldata.diff)
              ((basilDefaults wsp0).basil_options.getD []) with
          | inl hnil => exact absurd hnil hne
          | inr hex =>
              obtain ⟨opts, d, rest, heq⟩ := hex
              refine ⟨opts, d, by rw [hms, heq]; rfl, FI.2 opts d ?_⟩
              rw [heq]
              exact List.mem_cons_self _ _
    obtain ⟨opts, d, hhead, hcfm⟩ := hfab
    obtain ⟨p, tail, hmceq, hp1⟩ :=
      runChain_head_submitted E msteps mc hmrun opts d hhead
    refine ⟨ic, mLast, p, tail, crLast, ?_, hgl, hlast, ?_, ?_⟩
    · rw [hout]
    · rw [hout]
      exact hmceq
    · rw [hp1]
      exact hcfm
  · intro hall
    have hle : ¬ 1 < (basilDefaults wsp0).asldata.rpts.foldl max 0 := by
      rw [basilDefaults_asldata]
      exact not_lt.mpr (foldl_max_le_one wsp0.asldata.rpts 0 (Nat.zero_le 1)
        (fun r hr => (hall r hr).le))
    obtain ⟨mc, hmc, hout⟩ := basil_noprefit_ok_inv E wsp0 out hle hok
    obtain ⟨msteps, hmst, hmrun⟩ := basil_fit_ok_inv E _ _ _ mc hmc
    have hne := basil_steps_ok_ne_nil _ _ _ msteps hmst
    constructor
    · rw [hout]
    · rw [hout]
      exact runChain_ok_ne_nil E msteps mc hne hmrun

/-- Witness for C9: a two-repeat dataset takes the pre-fit path and the
main chain continues from the pre-fit posterior; a one-repeat dataset
skips the pre-fit and still runs the main chain. -/
theorem C9_witness :
    (∃ ic mLast p tail cr,
        c9Out.initChain = some ic ∧ ic.getLast? = some cr ∧
        dget cr.2 "finalMVN" = some (Val.mvn mLast) ∧
        c9Out.mainChain = p :: tail ∧
        dget p.1 "continue-from-mvn" = some (Val.mvn mLast)) ∧
    (c9bOut.initChain = Option.none ∧ c9bOut.mainChain ≠ []) :=
  ⟨(C9_prefit cE9 c9Wsp c9Out (fun _ => ⟨c9Mvn, rfl⟩) rfl).1 (by decide),
   (C9_prefit cE9 c9bWsp c9bOut (fun _ => ⟨c9Mvn, rfl⟩) rfl).2 (by decide)⟩

/-! ### Claim C1: continuation injection along a chain -/

/-- C1 counterexample: in a chain whose second step is a PVC initialisation
step, step 2's submitted configuration contains no "continue-from-mvn"
entry even though step 1's result produced a final posterior — the runner
only injects the previous posterior for Fabber steps. -/
theorem C1_counterexample :
    (runChain c1E c1Chain Option.none).map
        (fun rs => rs.map (fun p => dget p.1 "continue-from-mvn")) =
      Except.ok [Option.none, Option.none] ∧
    dget (c1E []) "finalMVN" = some (Val.mvn c9Mvn) := ⟨rfl, rfl⟩

/-- C1 (amended): along an executed chain, every FABBER step at position
k+1 is submitted with its planned configuration plus, under
"continue-from-mvn", exactly the final posterior of step k's result; a
Fabber step at the head of the chain is submitted with its planned
configuration unchanged; and a PVC initialisation step runs with its
planned configuration unchanged (no injection). -/
theorem C1_fabber_continuation (E : Config → StepResult) (steps : List Step)
    (rs : List (Config × StepResult))
    (h : runChain E steps Option.none = Except.ok rs) :
    (∀ (k : Nat) (opts : Config) (d : String) (p q : Config × StepResult),
        steps[k + 1]? = some (Step.fabber opts d) →
        rs[k]? = some q → rs[k + 1]? = some p →
        ∃ v, dget q.2 "finalMVN" = some v ∧
          p.1 = dset opts "continue-from-mvn" v) ∧
    (∀ opts d, steps.head? = some (Step.fabber opts d) →
        ∃ p tail, rs = p :: tail ∧ p.1 = opts) ∧
    (∀ (k : Nat) (opts : Config) (d : String) (p : Config × StepResult),
        steps[k]? = some (Step.pvcInit opts d) →
        rs[k]? = some p → p.1 = opts) :=
  ⟨runChain_consecutive E steps Option.none rs h,
    fun opts d hh => runChain_head_submitted E steps rs h opts d hh,
    runChain_pvc_options E steps Option.none rs h⟩

/-- Witness for C1 on a concrete two-Fabber-step chain: the second step's
submitted configuration is the planned one plus the first result's final
posterior under "continue-from-mvn". -/
theorem C1_witness :
    ∃ v, dget ((([] : Config), c1E []) : Config × StepResult).2 "finalMVN"
        = some v ∧
      (c1Cfg2, c1E c1Cfg2).1 = dset [("x", Val.b true)] "continue-from-mvn" v :=
  (C1_fabber_continuation c1E c1bChain c1Rs rfl).1 0
    [("x", Val.b true)] "b" (c1Cfg2, c1E c1Cfg2) (([] : Config), c1E [])
    rfl rfl rfl

end OxaslBasil
